import Mathlib

/-!
Verification development for the go-nmea-client repository.

The Go source is embedded shallowly:
  * machine integers are `Nat` (unsigned) or `Int` (signed) with explicit
    truncation (`% 2^w`, helpers `u16`, `add16`, `sub16`, `shl64`, `shr64`)
    exactly where the Go program's fixed-width arithmetic can wrap;
  * byte buffers (`[]byte`, `RawData`) are `List Nat` whose elements are byte
    values; indexing and slicing go through `goIndex` / `goSet` / `goSlice`,
    which return `DErr.oobPanic` exactly when the Go expression would raise an
    index-out-of-range / slice-bounds runtime panic;
  * fallible Go functions returning `(value, error)` become
    `Except DErr value`; the three NMEA sentinel errors and generic
    `errors.New` / `fmt.Errorf` errors are separate constructors;
  * `float64` resolution factors are carried as exact rationals `ℚ`; every
    concrete theorem below evaluates them only at values where the Go float
    arithmetic is exact, and this is noted at each site.
-/

namespace GoNmea

/-- Error outcomes of embedded Go code: the three NMEA decoding sentinels,
ordinary Go `error` values (message kept for reference), and a Go runtime
panic (index out of range). -/
inductive DErr where
  | noData
  | outOfRange
  | reservedValue
  | goError (msg : String)
  | oobPanic
deriving DecidableEq

/-- Result of embedded fallible Go code. -/
abbrev Res (α : Type) := Except DErr α

instance {ε α : Type} [DecidableEq ε] [DecidableEq α] : DecidableEq (Except ε α) :=
  fun a b =>
    match a, b with
    | .ok x, .ok y =>
      if h : x = y then .isTrue (by rw [h]) else .isFalse (by intro hc; cases hc; exact h rfl)
    | .error x, .error y =>
      if h : x = y then .isTrue (by rw [h]) else .isFalse (by intro hc; cases hc; exact h rfl)
    | .ok _, .error _ => .isFalse (by intro hc; cases hc)
    | .error _, .ok _ => .isFalse (by intro hc; cases hc)

/-- Go `l[i]` read: panics when out of bounds. -/
def goIndex (l : List Nat) (i : Nat) : Res Nat :=
  if h : i < l.length then .ok (l.get ⟨i, h⟩) else .error .oobPanic

/-- Go `l[i] = v` write: panics when out of bounds. -/
def goSet (l : List Nat) (i : Nat) (v : Nat) : Res (List Nat) :=
  if i < l.length then .ok (l.set i v) else .error .oobPanic

/-- Go `l[s:e]` slice: panics unless `s ≤ e ≤ len l`. -/
def goSlice (l : List Nat) (s e : Nat) : Res (List Nat) :=
  if s ≤ e ∧ e ≤ l.length then .ok ((l.drop s).take (e - s)) else .error .oobPanic

/-- Go `copy(dst, src)`: copies `min (len dst) (len src)` elements to the
front of `dst`, leaving the rest of `dst` unchanged. -/
def goCopy (dst src : List Nat) : List Nat :=
  src.take dst.length ++ dst.drop src.length

/-- uint16 truncation. -/
def u16 (x : Nat) : Nat := x % 65536

/-- uint16 addition. -/
def add16 (a b : Nat) : Nat := (a + b) % 65536

/-- uint16 subtraction (wraps around). -/
def sub16 (a b : Nat) : Nat := (a % 65536 + (65536 - b % 65536)) % 65536

/-- Go `int` → `uint16` conversion (two's complement truncation). -/
def intToU16 (i : Int) : Nat := (i % 65536).toNat

/-- uint64 left shift: Go gives 0 when the shift count reaches the width. -/
def shl64 (x k : Nat) : Nat := if k ≥ 64 then 0 else (x <<< k) % (2 ^ 64)

/-- uint64 right shift: Go gives 0 when the shift count reaches the width. -/
def shr64 (x k : Nat) : Nat := if k ≥ 64 then 0 else (x % (2 ^ 64)) >>> k

/-- uint64 addition. -/
def add64 (a b : Nat) : Nat := (a + b) % (2 ^ 64)

/-- Go `int32` value reinterpreted as `uint64` (as in `uint64(int32val)` after
an implicit widening through int64): two's complement. -/
def int32ToU64 (i : Int) : Nat := (i % (2 ^ 64)).toNat

/-- Go `int64(u)` for a `uint64` value `u`: two's complement reinterpretation. -/
def toInt64 (u : Nat) : Int :=
  if u < 2 ^ 63 then (u : Int) else (u : Int) - 2 ^ 64

/-- Go `int64` addition (wraps around). -/
def addInt64 (a b : Int) : Int :=
  ((a + b + 2 ^ 63) % 2 ^ 64) - 2 ^ 63

/-- `binary.LittleEndian.Uint64` over (the first 8 bytes of) a buffer. -/
def le64 (l : List Nat) : Nat :=
  (l.take 8).foldr (fun b acc => b + 256 * acc) 0

/-- `binary.LittleEndian.Uint32` over (the first 4 bytes of) a buffer. -/
def le32 (l : List Nat) : Nat :=
  (l.take 4).foldr (fun b acc => b + 256 * acc) 0

/-- `binary.LittleEndian.Uint16` over (the first 2 bytes of) a buffer. -/
def le16 (l : List Nat) : Nat :=
  (l.take 2).foldr (fun b acc => b + 256 * acc) 0

/-! ## RawData bit codec (fieldvalue.go)

Embeds the `RawData` methods.  All bit offsets and bit lengths are Go
`uint16` values; the sites where the Go arithmetic can wrap use the `u16` /
`add16` / `sub16` helpers. -/

/-- Inner loop of `RawData.DecodeBytes` (the `startBitIndex != 0` branch):
`for i := 1; i <= length; i++`.  `fuel` is the number of remaining
iterations, `i` the Go loop counter. -/
def decodeBytesLoop (d : List Nat) (startByteIndex startBitIndex maskLeading : Nat) :
    Nat → Nat → Int → List Nat → Res (List Nat)
  | 0, _, _, result => .ok result
  | fuel + 1, i, remainingBits, result => do
    let current ← goIndex d (startByteIndex + i)
    let leadingAsTrailing := ((current &&& maskLeading) <<< startBitIndex) % 256
    let prev ← goIndex result (i - 1)
    let result ← goSet result (i - 1) ((prev ||| leadingAsTrailing) % 256)
    let remainingBits := remainingBits - 8
    let result ←
      if remainingBits > 0 then goSet result i (current >>> startBitIndex)
      else pure result
    decodeBytesLoop d startByteIndex startBitIndex maskLeading fuel (i + 1) remainingBits result

/-- Embeds `RawData.DecodeBytes(bitOffset, bitLength, isVariableSize)`:
returns the extracted byte slice and the (possibly clamped) bit length. -/
def DecodeBytes (d : List Nat) (bitOffset bitLength : Nat) (isVariableSize : Bool) :
    Res (List Nat × Nat) := do
  -- endByteIndex := (bitOffset + bitLength - 1) / 8   (uint16)
  let endByteIndex := add16 (add16 bitOffset bitLength) 65535 / 8
  let (endByteIndex, bitLength) ←
    if (endByteIndex : Int) > (d.length : Int) - 1 then
      if isVariableSize then
        pure (intToU16 ((d.length : Int) - 1),
              sub16 bitLength (sub16 (add16 bitOffset bitLength) (u16 (8 * d.length))))
      else
        throw (.goError "bitoffset is out of bounds of data")
    else
      pure (endByteIndex, bitLength)
  let length := add16 bitLength 7 / 8
  let result := List.replicate length 0
  let startByteIndex := bitOffset / 8
  let startBitIndex := bitOffset % 8
  if startByteIndex = endByteIndex then do
    let b ← goIndex d startByteIndex
    let v := b >>> startBitIndex
    let v := if bitLength % 8 ≠ 0 then v &&& (0xFF >>> (8 - bitLength % 8)) else v
    let result ← goSet result 0 v
    return (result, bitLength)
  else if startBitIndex ≠ 0 then do
    let maskLeading := 0xFF >>> startBitIndex
    let b0 ← goIndex d startByteIndex
    let result ← goSet result 0 (b0 >>> startBitIndex)
    let result ← decodeBytesLoop d startByteIndex startBitIndex maskLeading
        length 1 ((bitLength : Int) - (startBitIndex : Int)) result
    return (result, bitLength)
  else do
    let src ← goSlice d startByteIndex (endByteIndex + 1)
    let result := goCopy result src
    let result ←
      if bitLength % 8 ≠ 0 then do
        let last ← goIndex result (result.length - 1)
        goSet result (result.length - 1) (last &&& (0xFF >>> (8 - bitLength % 8)))
      else pure result
    return (result, bitLength)

/-- Embeds `RawData.decodeVariableInt(bitOffset, bitLength, signed)` (returns
the raw uint64 bit pattern; sign reinterpretation happens in the callers). -/
def decodeVariableInt (d : List Nat) (bitOffset bitLength : Nat) (signed : Bool) :
    Res Nat := do
  if bitLength > 64 then throw (.goError "bit length larger than can be decoded")
  let startByteIndex := bitOffset / 8
  let endByteIndex := sub16 (add16 (add16 bitOffset bitLength) 7 / 8) 1
  if endByteIndex ≥ d.length then throw (.goError "bitoffset is out of bounds of data")
  let src ← goSlice d startByteIndex (endByteIndex + 1)
  let rawBytes := goCopy (List.replicate 8 0) src
  let result := le64 rawBytes
  let result := result >>> (bitOffset % 8)
  let mask0 := shr64 (2 ^ 64 - 1) (64 - bitLength)
  let result := result &&& mask0
  let isNegative := signed && (result &&& shl64 1 (sub16 bitLength 1) ≠ 0)
  let mask := if signed then mask0 >>> 1 else mask0
  if bitLength ≥ 8 then
    if result = mask then throw .noData
    else if result = mask - 1 then throw .outOfRange
    else if result = mask - 2 then throw .reservedValue
    else pure ()
  if isNegative then
    -- negativeMask := ^((^uint64(0)) >> (64 - bitLength))
    let negativeMask := (2 ^ 64 - 1) ^^^ shr64 (2 ^ 64 - 1) (64 - bitLength)
    return result ||| negativeMask
  return result

/-- Embeds `RawData.DecodeVariableUint`. -/
def DecodeVariableUint (d : List Nat) (bitOffset bitLength : Nat) : Res Nat :=
  decodeVariableInt d bitOffset bitLength false

/-- Embeds `RawData.DecodeVariableInt` (casts the raw pattern to int64). -/
def DecodeVariableInt (d : List Nat) (bitOffset bitLength : Nat) : Res Int :=
  (decodeVariableInt d bitOffset bitLength true).map toInt64

/-- Embeds `RawData.DecodeTime`.  The result is a `time.Duration` carried as
nanoseconds.  The Go code computes `uint64(float64(rawSeconds)*resolution)`
in float64; here the product is exact in ℚ and truncated with `floor`, which
agrees with Go whenever the float product is exact (the case at every
concrete input used below). -/
def DecodeTime (d : List Nat) (bitOffset bitLength : Nat) (resolution : ℚ) : Res Int := do
  let rawSeconds ← DecodeVariableUint d bitOffset bitLength
  let result : Int := ⌊(rawSeconds : ℚ) * resolution⌋ * 1000000000
  if resolution < 1 then
    -- unitsInSecond := uint64(1 / resolution); fraction carried to nanoseconds
    let unitsInSecond : Nat := (max ⌊1 / resolution⌋ 0).toNat
    let fraction := rawSeconds % unitsInSecond
    return result + ((1000000000 / unitsInSecond) * fraction : Nat)
  return result

/-- Length of the prefix of `l` before the first `0x00`, `0xFF` or `'@'`
terminator (the scan loop of `RawData.DecodeStringFix`). -/
def stringFixLength : List Nat → Nat
  | [] => 0
  | b :: rest => if b = 0xFF ∨ b = 0x0 ∨ b = 0x40 then 0 else 1 + stringFixLength rest

/-- Embeds `RawData.DecodeStringFix`.  Go strings are carried as byte lists. -/
def DecodeStringFix (d : List Nat) (bitOffset bitLength : Nat) : Res (List Nat) := do
  let (rawBytes, _) ← DecodeBytes d bitOffset bitLength false
  return rawBytes.take (stringFixLength rawBytes)

/-- Go `utf16.Decode`: code units to runes, combining surrogate pairs and
replacing unmatched surrogates with U+FFFD. -/
def utf16DecodeRunes : List Nat → List Nat
  | [] => []
  | [u] => if 0xD800 ≤ u ∧ u < 0xE000 then [0xFFFD] else [u]
  | u :: v :: rest =>
    if 0xD800 ≤ u ∧ u < 0xDC00 then
      if 0xDC00 ≤ v ∧ v < 0xE000 then
        (0x10000 + (u - 0xD800) * 0x400 + (v - 0xDC00)) :: utf16DecodeRunes rest
      else 0xFFFD :: utf16DecodeRunes (v :: rest)
    else if 0xD800 ≤ u ∧ u < 0xE000 then 0xFFFD :: utf16DecodeRunes (v :: rest)
    else u :: utf16DecodeRunes (v :: rest)

/-- Go UTF-8 encoding of one rune (runes from `utf16.Decode` are always
valid scalar values ≤ 0x10FFFF). -/
def utf8EncodeRune (r : Nat) : List Nat :=
  if r < 0x80 then [r]
  else if r < 0x800 then [0xC0 ||| r / 64, 0x80 ||| r % 64]
  else if r < 0x10000 then [0xE0 ||| r / 4096, 0x80 ||| r / 64 % 64, 0x80 ||| r % 64]
  else [0xF0 ||| r / 262144, 0x80 ||| r / 4096 % 64, 0x80 ||| r / 64 % 64, 0x80 ||| r % 64]

/-- `binary.Read` of `len b / 2` uint16 code units in the given byte order
(`little = true` for `binary.LittleEndian`). -/
def bytesToU16s (little : Bool) : List Nat → List Nat
  | b0 :: b1 :: rest =>
    (if little then b0 + 256 * b1 else b1 + 256 * b0) :: bytesToU16s little rest
  | _ => []

/-- Embeds `decodeUtf16` (never errors: the reader always holds enough
bytes for `len(b)/2` uint16 values).  Result is the UTF-8 byte string. -/
def decodeUtf16 (b : List Nat) (little : Bool) : List Nat :=
  (utf16DecodeRunes (bytesToU16s little b)).flatMap utf8EncodeRune

/-- Length of the prefix of `l` before the first `0x00` or `0xFF`
(trailing "no data" stripping in the UTF-8 branch of `DecodeStringLAU`). -/
def usableBytesLength : List Nat → Nat
  | [] => 0
  | b :: rest => if b = 0 ∨ b = 0xFF then 0 else 1 + usableBytesLength rest

/-- Embeds `RawData.DecodeStringLAU(bitOffset)`: length byte, encoding byte
(0 = UTF-16 with optional BOM, 1 = UTF-8/ASCII), then payload.  Returns the
string bytes and the number of bits consumed. -/
def DecodeStringLAU (d : List Nat) (bitOffset : Nat) : Res (List Nat × Nat) := do
  let (headerBytes, _) ← DecodeBytes d bitOffset 16 false
  let length ← goIndex headerBytes 0
  if length = 2 then return ([], 16)
  if length < 2 then throw (.goError "string lau has invalid size below 2")
  let length := length - 2
  let encoding ← goIndex headerBytes 1
  let (rawBytes, readBits) ← DecodeBytes d (add16 bitOffset 16) (u16 (length * 8)) true
  let readBits := add16 readBits 16
  if encoding = 0 then do
    -- bom := [2]byte{rawBytes[0], rawBytes[1]}  (panics when fewer than 2 bytes)
    let bom0 ← goIndex rawBytes 0
    let bom1 ← goIndex rawBytes 1
    let s :=
      if bom0 = 0xFF ∧ bom1 = 0xFE then decodeUtf16 (rawBytes.drop 2) true
      else if bom0 = 0xFE ∧ bom1 = 0xFF then decodeUtf16 (rawBytes.drop 2) false
      else decodeUtf16 rawBytes true
    return (s, readBits)
  else if encoding = 1 then
    return (rawBytes.take (usableBytesLength rawBytes), readBits)
  else throw (.goError "invalid string lau encoding")

/-- Embeds `RawData.DecodeStringLZ(bitOffset, bitLength)`: the byte at
`bitOffset/8` is the string byte length, capped to `(bitLength+7)/8`. -/
def DecodeStringLZ (d : List Nat) (bitOffset bitLength : Nat) : Res (List Nat × Nat) := do
  let lengthByteIndex := bitOffset / 8
  let actualLength ← goIndex d lengthByteIndex
  let fieldLength := add16 bitLength 7 / 8
  let actualLength ←
    if actualLength > fieldLength then pure fieldLength
    else if actualLength = 0 then return ([], 8)
    else pure actualLength
  let (rawBytes, readBits) ← DecodeBytes d (add16 bitOffset 8) (u16 (actualLength * 8)) true
  return (rawBytes, readBits)

/-- Embeds `RawData.DecodeDate`.  The wall-clock result `epoch + raw days`
is carried as the day count. -/
def DecodeDate (d : List Nat) (bitOffset bitLength : Nat) : Res Nat := do
  if bitLength ≠ 16 then throw (.goError "can only decode date with 16 bits")
  let (rawBytes, _) ← DecodeBytes d bitOffset bitLength false
  let daysSinceEpoch := le16 rawBytes
  if daysSinceEpoch = 65535 then throw .noData
  else if daysSinceEpoch = 65534 then throw .outOfRange
  else if daysSinceEpoch = 65533 then throw .reservedValue
  else return daysSinceEpoch

/-- The backwards loop of `RawData.DecodeDecimal` (`for i := len-1; i >= 0; i--`),
folding over the reversed byte list. -/
def decodeDecimalLoop : List Nat → Nat → Nat → Bool → Res (Nat × Bool)
  | [], result, _, isNoData => .ok (result, isNoData)
  | b :: rest, result, digits, isNoData =>
    if b = 0xFF then decodeDecimalLoop rest result digits isNoData
    else if b > 99 then .error (.goError "decimal contains byte with value larger than 2 digits")
    else
      decodeDecimalLoop rest (result + digits * (b % 10) + digits * 10 * (b / 10))
        (digits * 100) false

/-- Embeds `RawData.DecodeDecimal`: two BCD-ish digits per byte, `0xFF`
bytes skipped, all-`0xFF` payload is "no data". -/
def DecodeDecimal (d : List Nat) (bitOffset bitLength : Nat) : Res Nat := do
  let (rawBytes, _) ← DecodeBytes d bitOffset bitLength false
  let (result, isNoData) ← decodeDecimalLoop rawBytes.reverse 0 1 true
  if isNoData then throw .noData
  return result

/-- Embeds `RawData.DecodeFloat`.  The value is the raw IEEE-754 single bit
pattern (the int32→float64 widening in Go is exact and injective, so no
information is lost by carrying the bits). -/
def DecodeFloat (d : List Nat) (bitOffset bitLength : Nat) : Res Nat := do
  if bitLength ≠ 32 then throw (.goError "can only decode float with 32 bits")
  let (rawBytes, _) ← DecodeBytes d bitOffset bitLength false
  let asUint32 := le32 rawBytes
  if asUint32 = 4294967295 then throw .noData
  else if asUint32 = 4294967294 then throw .outOfRange
  else if asUint32 = 4294967293 then throw .reservedValue
  else return asUint32

/-! ## CAN-ID header codec (canbus.go) -/

/-- `AddressGlobal` (broadcast). -/
def AddressGlobal : Nat := 255
/-- `AddressNull` (unclaimed source). -/
def AddressNull : Nat := 254

/-- Embeds `nmea.CanBusHeader`.  Field values are the Go uint32/uint8
contents (kept in range by Go's types at every construction site). -/
structure CanBusHeader where
  pgn : Nat
  priority : Nat
  source : Nat
  destination : Nat
deriving DecidableEq

/-- Embeds `CanBusHeader.Uint32` (header → 29-bit CAN identifier). -/
def CanBusHeader.Uint32 (h : CanBusHeader) : Nat :=
  let canID := h.source
  let pf := h.pgn % 256
  let canID := if pf < 240 then canID ||| (h.destination <<< 8) else canID
  let canID := canID ||| (h.pgn <<< 8)
  canID ||| ((h.priority &&& 0x7) <<< 26)

/-- Embeds `ParseCANID` (29-bit CAN identifier → header). -/
def ParseCANID (canID : Nat) : CanBusHeader :=
  let priority := (canID >>> 26) &&& 0x7
  let source := canID % 256
  let ps := (canID >>> 8) % 256
  let pduFormat := (canID >>> 16) % 256
  let rAndDP := (canID >>> 24) &&& 3
  let pgn := (rAndDP <<< 16) + (pduFormat <<< 8)
  if pduFormat < 240 then
    { pgn := pgn, priority := priority, source := source, destination := ps }
  else
    { pgn := pgn + ps, priority := priority, source := source, destination := AddressGlobal }

/-! ## Canboat schema types and field decoding (canboat/canboatpgns.go) -/

/-- Embeds `canboat.FieldType`. -/
inductive FieldType where
  | number | float | decimal | lookup | indirectLookup | bitLookup
  | time | date | stringFix | stringVar | stringLz | stringLAU
  | binary | reservedField | spare | mmsi | variable
deriving DecidableEq

/-- Embeds `canboat.Field` (the attributes used by decoding).  `resolution`
is the Go float64 carried as an exact rational; `offset` is the int32. -/
structure Field where
  id : String
  bitLength : Nat
  bitOffset : Nat
  bitLengthVariable : Bool
  signed : Bool
  offset : Int
  resolution : ℚ
  fieldType : FieldType
  match_ : Int
deriving DecidableEq

/-- Embeds `nmea.FieldValue.Value`: the tagged union of decoded values.
Strings are byte lists, durations are nanoseconds, dates are day counts,
floats are IEEE-754 single bit patterns, float64 results are exact
rationals (see the module comment). -/
inductive FValue where
  | i64 (v : Int)
  | u64 (v : Nat)
  | f64 (v : ℚ)
  | bytes (b : List Nat)
  | duration (ns : Int)
  | date (days : Nat)
  | str (bytes : List Nat)
  | float32bits (bits : Nat)
deriving DecidableEq

/-- Embeds `nmea.FieldValue`. -/
structure FieldValue where
  id : String
  type : String
  value : FValue
deriving DecidableEq

/-- Embeds `Field.decodeNumber`.  The float64 multiplication
`float64(tmp) * f.Resolution` is carried exactly in ℚ; int64/uint64
offset addition wraps as in Go. -/
def Field.decodeNumber (f : Field) (rawData : List Nat) (bitOffset : Nat) :
    Res FieldValue := do
  if f.signed then
    let tmpIntValue ← DecodeVariableInt rawData bitOffset f.bitLength
    let tmpIntValue := addInt64 tmpIntValue f.offset
    if f.resolution = 1 then
      return { id := f.id, type := "INT64", value := .i64 tmpIntValue }
    return { id := f.id, type := "FLOAT64", value := .f64 ((tmpIntValue : ℚ) * f.resolution) }
  else
    let tmpUIntValue ← DecodeVariableUint rawData bitOffset f.bitLength
    let tmpUIntValue := add64 tmpUIntValue (int32ToU64 f.offset)
    if f.resolution = 1 then
      return { id := f.id, type := "UINT64", value := .u64 tmpUIntValue }
    return { id := f.id, type := "FLOAT64", value := .f64 ((tmpUIntValue : ℚ) * f.resolution) }

/-- Embeds `Field.decodeBytes`. -/
def Field.decodeBytes (f : Field) (rawData : List Nat) (bitOffset : Nat) :
    Res (FieldValue × Nat) := do
  let (value, bits) ← DecodeBytes rawData bitOffset f.bitLength f.bitLengthVariable
  return ({ id := f.id, type := "BYTES", value := .bytes value }, bits)

/-- Embeds `Field.Decode`: dispatch by field type.  Returns the field value
and the number of bits consumed; on a Go error return, the bits value the Go
code pairs with the error is reported alongside (`.error`, bits);
`DErr.oobPanic` models a Go runtime panic instead of an error return. -/
def Field.Decode (f : Field) (rawData : List Nat) (bitOffset : Nat) :
    (Res FieldValue) × Nat :=
  match f.fieldType with
  | .number | .lookup | .indirectLookup | .bitLookup =>
    (f.decodeNumber rawData bitOffset, f.bitLength)
  | .reservedField | .spare | .binary =>
    match f.decodeBytes rawData bitOffset with
    | .ok (fv, bits) => (.ok fv, bits)
    | .error e => (.error e, 0)
  | .time =>
    match DecodeTime rawData bitOffset f.bitLength f.resolution with
    | .ok v => (.ok { id := f.id, type := "DURATION", value := .duration v }, f.bitLength)
    | .error e => (.error e, f.bitLength)
  | .mmsi =>
    match DecodeVariableUint rawData bitOffset f.bitLength with
    | .ok v => (.ok { id := f.id, type := "UINT64", value := .u64 v }, f.bitLength)
    | .error e => (.error e, f.bitLength)
  | .stringFix =>
    match DecodeStringFix rawData bitOffset f.bitLength with
    | .ok s => (.ok { id := f.id, type := "STRING", value := .str s }, f.bitLength)
    | .error e => (.error e, f.bitLength)
  | .stringLz =>
    match DecodeStringLZ rawData bitOffset f.bitLength with
    | .ok (s, bits) => (.ok { id := f.id, type := "STRING", value := .str s }, bits)
    | .error e => (.error e, 0)
  | .stringLAU =>
    match DecodeStringLAU rawData bitOffset with
    | .ok (s, bits) => (.ok { id := f.id, type := "STRING", value := .str s }, bits)
    | .error e => (.error e, 0)
  | .date =>
    match DecodeDate rawData bitOffset f.bitLength with
    | .ok v => (.ok { id := f.id, type := "DATE", value := .date v }, f.bitLength)
    | .error e => (.error e, f.bitLength)
  | .decimal =>
    match DecodeDecimal rawData bitOffset f.bitLength with
    | .ok v => (.ok { id := f.id, type := "UINT64", value := .u64 v }, f.bitLength)
    | .error e => (.error e, f.bitLength)
  | .float =>
    match DecodeFloat rawData bitOffset f.bitLength with
    | .ok v => (.ok { id := f.id, type := "FLOAT64", value := .float32bits v }, f.bitLength)
    | .error e => (.error e, f.bitLength)
  | _ => (.error (.goError "unsupported field type"), 0)

/-- Embeds `Field.IsMatch`: errors count as no match. -/
def Field.IsMatch (f : Field) (rawData : List Nat) : Bool :=
  match DecodeVariableUint rawData f.bitOffset f.bitLength with
  | .ok value => f.match_ = (value : Int)
  | .error _ => false

/-! ## Canboat decoder (canboat/decoder.go)

The decoder model covers the non-repeating decode path (`Decoder.decode`,
selected by `Decoder.Decode` when both repeating-fieldset start fields are
zero), which is the path the verified claims cite. -/

/-- Embeds `canboat.PGN` (attributes used on the non-repeating path). -/
structure CPGN where
  pgn : Nat
  isMatchable : Bool
  repeatingFieldSet1StartField : Nat
  repeatingFieldSet2StartField : Nat
  fields : List Field
deriving DecidableEq

/-- Embeds `PGN.IsMatch`. -/
def CPGN.IsMatch (p : CPGN) (rawData : List Nat) : Bool :=
  if ¬p.isMatchable then false
  else p.fields.all fun f => if f.match_ = 0 then true else f.IsMatch rawData

/-- Embeds `canboat.DecoderConfig`. -/
structure DecoderConfig where
  decodeReservedFields : Bool
  decodeSpareFields : Bool
  decodeLookupsToEnumType : Bool
deriving DecidableEq

/-- Embeds `canboat.Decoder` (lookup maps as association lists; the Go maps
are only ever queried by key, so iteration order is irrelevant). -/
structure Decoder where
  config : DecoderConfig
  uniquePGNs : List (Nat × CPGN)
  nonUniqPGNs : List (Nat × List CPGN)

/-- Embeds `nmea.RawMessage` (wall-clock time as an integer timestamp). -/
structure RawMsg where
  time : Int
  header : CanBusHeader
  data : List Nat
deriving DecidableEq

/-- Embeds the `decoded` record of the non-repeating path. -/
structure Decoded where
  field : Field
  value : FieldValue
deriving DecidableEq

/-- Embeds `Decoder.decodeSingleField`.  Go's `errValueIgnored` control-flow
error is modelled as `.ok none`; a Go runtime panic propagates as
`.error .oobPanic`. -/
def decodeSingleField (cfg : DecoderConfig) (raw : RawMsg) (f : Field) (bitOffset : Nat) :
    Res (Option Decoded × Nat) :=
  if (f.fieldType = .reservedField ∧ ¬cfg.decodeReservedFields) ∨
     (f.fieldType = .spare ∧ ¬cfg.decodeSpareFields) then
    .ok (none, f.bitLength)
  else
    match f.Decode raw.data bitOffset with
    | (.ok fv, readBits) => .ok (some { field := f, value := fv }, readBits)
    | (.error .oobPanic, _) => .error .oobPanic
    | (.error e, readBits) =>
      if e = .noData ∨ e = .outOfRange ∨ e = .reservedValue then .ok (none, readBits)
      else .error (.goError "decoder failed to decode field")

/-- Embeds the loop of `Decoder.decode` (the non-repeating path):
fields are consumed in order while the bit offset is inside the message. -/
def decodeFields (cfg : DecoderConfig) (raw : RawMsg) (messageBitCount : Nat) :
    List Field → Nat → Res (List Decoded)
  | [], _ => .ok []
  | f :: rest, bitOffset =>
    if bitOffset < messageBitCount then
      match decodeSingleField cfg raw f bitOffset with
      | .error e => .error e
      | .ok (od, readBits) =>
        match decodeFields cfg raw messageBitCount rest (add16 bitOffset readBits) with
        | .error e => .error e
        | .ok tail =>
          match od with
          | none => .ok tail
          | some dfv => .ok (dfv :: tail)
    else .ok []

/-- Embeds `Decoder.decode` for a PGN definition without repeating field
sets: decoding starts at the first field's declared bit offset
(`pgn.Fields[0].BitOffset`; Go panics when the field list is empty). -/
def decodeNonRepeating (cfg : DecoderConfig) (pgn : CPGN) (raw : RawMsg) :
    Res (List Decoded) :=
  match pgn.fields with
  | [] => .error .oobPanic
  | f0 :: _ => decodeFields cfg raw (u16 (8 * raw.data.length)) pgn.fields f0.bitOffset

/-- Embeds `Decoder.postProcessFields` on the non-repeating path with
`DecodeLookupsToEnumType` disabled (the configuration fixed by the claims
below): every decoded entry contributes its field value unchanged. -/
def postProcessFieldsPlain : List Decoded → List FieldValue :=
  List.map (·.value)

/-- Embeds `nmea.Message` (the decoded message). -/
structure Message where
  header : CanBusHeader
  fields : List FieldValue
deriving DecidableEq

/-- Embeds `PGNs.Match` (first candidate whose match fields extract the
declared literals wins). -/
def matchPGNs (pgns : List CPGN) (rawData : List Nat) : Option CPGN :=
  pgns.find? (fun p => p.IsMatch rawData)

/-- Embeds `Decoder.findPGN`. -/
def findPGN (d : Decoder) (raw : RawMsg) : Res CPGN :=
  match (d.uniquePGNs.find? (fun p => p.1 = raw.header.pgn)).map (·.2) with
  | some pgn => .ok pgn
  | none =>
    match (d.nonUniqPGNs.find? (fun p => p.1 = raw.header.pgn)).map (·.2) with
    | none => .error (.goError "decode failed, unknown PGN seen")
    | some pgns =>
      if pgns.length = 0 then .error (.goError "decode failed, unknown PGN seen")
      else
        match matchPGNs pgns raw.data with
        | some pgn => .ok pgn
        | none => .error (.goError "decode failed, unknown PGN seen")

/-- Embeds `Decoder.Decode` for messages whose matched PGN definition has no
repeating field sets, with `DecodeLookupsToEnumType` disabled. -/
def Decode (d : Decoder) (raw : RawMsg) : Res Message :=
  match findPGN d raw with
  | .error e => .error e
  | .ok pgn =>
    match decodeNonRepeating d.config pgn raw with
    | .error e => .error e
    | .ok decodedFields =>
      .ok { header := raw.header, fields := postProcessFieldsPlain decodedFields }

/-! ## Fast-Packet assembler (fastpacket.go)

Frame times and the assembler's `now` are integer nanosecond timestamps
(Go `time.Time`, zero value = 0).  `RawFrame.Data` is the Go `[8]byte`
array: frames are always constructed with exactly 8 byte entries, and the
locode below uses the constant 8 where Go uses `len(frame.Data)`. -/

/-- `FastRawPacketMaxSize`. -/
def FastRawPacketMaxSize : Nat := 223

/-- Embeds `nmea.RawFrame`. -/
structure RawFrame where
  time : Int
  header : CanBusHeader
  length : Nat
  data : List Nat
deriving DecidableEq

/-- Embeds `fastPacketSequence`. -/
structure FPSeq where
  header : CanBusHeader
  lastReceivedFrameTime : Int
  seqId : Nat
  length : Nat
  completeFramesMask : Nat
  receivedFramesMask : Nat
  receivedFramesCount : Nat
  data : List Nat
deriving DecidableEq

/-- A zeroed `fastPacketSequence` (what `sync.Pool.New` allocates). -/
def FPSeq.zero : FPSeq :=
  { header := ⟨0, 0, 0, 0⟩, lastReceivedFrameTime := 0, seqId := 0, length := 0,
    completeFramesMask := 0, receivedFramesMask := 0, receivedFramesCount := 0,
    data := List.replicate 223 0 }

/-- Embeds `fastPacketSequence.Reset` (the data buffer is deliberately not
cleared). -/
def FPSeq.Reset (m : FPSeq) : FPSeq :=
  { header := ⟨0, 0, 0, 0⟩, lastReceivedFrameTime := 0, seqId := 0, length := 0,
    completeFramesMask := 0, receivedFramesMask := 0, receivedFramesCount := 0,
    data := m.data }

/-- Go `copy(l[start:stop], src)` into a list (bounds are provably in range
at the call sites in `Append`: `start+7 ≤ 223` since the frame number has 5
bits). -/
def copyIntoRange (l : List Nat) (start stop : Nat) (src : List Nat) : List Nat :=
  let n := min (stop - start) src.length
  l.take start ++ src.take n ++ l.drop (start + n)

/-- Embeds `fastPacketSequence.Append`.  Returns the updated sequence and
the completion flag.  uint8 arithmetic in the frame-count computation wraps
as in Go. -/
def FPSeq.Append (m : FPSeq) (frame : RawFrame) : FPSeq × Bool :=
  if frame.length < 2 then (m, false)
  else
    let firstByte := frame.data.getD 0 0
    let sequence := firstByte >>> 5
    let frameNr := firstByte &&& 0x1F
    let frameMask := 1 <<< frameNr
    if m.receivedFramesMask &&& frameMask ≠ 0 then
      (m, m.completeFramesMask = m.receivedFramesMask)
    else
      let m := if m.receivedFramesMask = 0 then
          { m with header := frame.header, seqId := sequence }
        else m
      let m := { m with
        receivedFramesMask := m.receivedFramesMask ||| frameMask,
        receivedFramesCount := (m.receivedFramesCount + 1) % 256,
        lastReceivedFrameTime := frame.time }
      let m :=
        if frameNr = 0 then
          let len := frame.data.getD 1 0
          -- frameCount := 1; if length > 6 { frameCount += (length-6+7)/7 }  (uint8)
          let frameCount :=
            if len > 6 then (1 + ((len + 256 - 6 + 7) % 256) / 7) % 256 else 1
          -- completeFramesMask := ^(0xFFFFFFFF << frameCount)  (uint32)
          let completeMask := 0xFFFFFFFF ^^^ ((0xFFFFFFFF <<< frameCount) % (2 ^ 32))
          { m with length := len, completeFramesMask := completeMask,
                   data := copyIntoRange m.data 0 6 (frame.data.drop 2) }
        else
          let start := 6 + (frameNr - 1) * 7
          { m with data := copyIntoRange m.data start (start + 8 - 1) (frame.data.drop 1) }
      (m, m.completeFramesMask = m.receivedFramesMask)

/-- Embeds `fastPacketSequence.To`: the assembled message takes the first
`length` data bytes (Go panics when `length` exceeds the 223-byte array). -/
def FPSeq.To (m : FPSeq) : Res RawMsg :=
  if m.length > 223 then .error .oobPanic
  else .ok { time := m.lastReceivedFrameTime, header := m.header, data := m.data.take m.length }

/-- Embeds `couldBeFastPacket`. -/
def couldBeFastPacket (pgn : Nat) : Bool := pgn ≥ 0x01ed00

/-- Embeds `FastPacketAssembler` state.  The `sync.Pool` is modelled as a
stack of free sequences: `Get` pops (allocating a zeroed sequence when
empty), `Put` pushes. -/
structure FPAState where
  pgns : List Nat
  inTransfer : List FPSeq
  pool : List FPSeq
deriving DecidableEq

/-- The match loop of `Assemble` over `a.inTransfer`: every matching stale
sequence is `Reset`, and the index of the last match wins (the Go loop has
no break).  `base` is the index of the list head in the full slice. -/
def scanInTransfer (src pgn seqId : Nat) (threshold : Int) :
    List FPSeq → Nat → List FPSeq × Option Nat
  | [], _ => ([], none)
  | s :: rest, base =>
    let (rest2, found) := scanInTransfer src pgn seqId threshold rest (base + 1)
    if s.header.source = src ∧ s.header.pgn = pgn ∧ s.seqId = seqId then
      let s2 := if s.lastReceivedFrameTime < threshold then s.Reset else s
      (s2 :: rest2, some (found.getD base))
    else (s :: rest2, found)

/-- Embeds `FastPacketAssembler.Assemble`.  Returns the new state, the
completion flag, and the `RawMessage` written to `to` when one is produced
(for non-fast-packet frames and at sequence completion). -/
def Assemble (a : FPAState) (frame : RawFrame) (now : Int) :
    Res (FPAState × Bool × Option RawMsg) :=
  let isFastPacket := couldBeFastPacket frame.header.pgn && a.pgns.contains frame.header.pgn
  if ¬isFastPacket then
    if frame.length > 8 then .error .oobPanic  -- frame.Data[0:frame.Length]
    else .ok (a, true,
      some { time := frame.time, header := frame.header, data := frame.data.take frame.length })
  else
    let threshold := now - 750000000
    let sequence := (frame.data.getD 0 0) >>> 5
    let (inT, found) :=
      scanInTransfer frame.header.source frame.header.pgn sequence threshold a.inTransfer 0
    let (fp, idx, inT, pool) :=
      match found with
      | some idx => ((inT.getD idx FPSeq.zero), idx, inT, a.pool)
      | none =>
        let (fp0, pool) := match a.pool with
          | p :: ps => (p, ps)
          | [] => (FPSeq.zero, [])
        let fp := fp0.Reset
        (fp, inT.length, inT ++ [fp], pool)
    let appended := fp.Append frame
    let fp := appended.1
    if appended.2 then
      match fp.To with
      | .error e => .error e
      | .ok msg =>
        -- inTransfer[idx] = inTransfer[len-1]; inTransfer = inTransfer[:len-1]
        let inT := (inT.set idx (inT.getD (inT.length - 1) FPSeq.zero)).dropLast
        .ok ({ pgns := a.pgns, inTransfer := inT, pool := fp :: pool }, true, some msg)
    else
      .ok ({ pgns := a.pgns, inTransfer := inT.set idx fp, pool := pool }, false, none)

/-! ## Actisense binary reader (actisense/binaryreader.go)

`BinaryFormatDevice.ReadRawMessage` is embedded as a pure state machine over
the incoming byte stream, with the default configuration
(`OutputActisenseMessages = false`).  Timestamps are immaterial to the
verified claim and are fixed to 0. -/

/-- `crc` of binaryreader.go: running uint16 sum folded back below 256. -/
def actisenseCrcStep (crc dd : Nat) : Nat :=
  if crc + dd > 255 then dd - (256 - crc) else crc + dd

/-- Embeds `crc(data)`. -/
def actisenseCrc (data : List Nat) : Nat :=
  data.foldl actisenseCrcStep 0

/-- Embeds `fromActisenseNGTBinaryMessage` (command bytes 0x93/0x94). -/
def fromActisenseNGTBinaryMessage (raw : List Nat) : Res RawMsg := do
  let length := raw.length - 2
  let data := raw.drop 2
  let l ← goIndex data 10          -- l := data[10] (panics when data is short)
  if length < 11 ∨ length < 11 + l then
    throw (.goError "raw message length too short to be valid NMEA message")
  if actisenseCrc raw ≠ 0 then throw (.goError "raw message has invalid crc")
  let pgn := data.getD 1 0 + (data.getD 2 0) <<< 8 + (data.getD 3 0) <<< 16
  let dataBytes := (data.drop 11).take l
  return { time := 0,
           header := { pgn := pgn, source := data.getD 5 0,
                       destination := data.getD 4 0, priority := data.getD 0 0 },
           data := dataBytes }

/-- Embeds `fromActisenseN2KBinaryMessage` (command byte 0xD0). -/
def fromActisenseN2KBinaryMessage (raw : List Nat) : Res RawMsg := do
  let length := raw.getD 1 0 + (raw.getD 2 0) <<< 8
  if length + 1 ≠ raw.length then
    throw (.goError "raw message length do not match actual data length")
  let dst := raw.getD 3 0
  let src := raw.getD 4 0
  let dprp := raw.getD 7 0
  let prio := (dprp >>> 2) &&& 7
  let rAndDP := dprp &&& 3
  let pduFormat := raw.getD 6 0
  let pgn := (rAndDP <<< 16) + (pduFormat <<< 8)
  let pgn := if pduFormat ≥ 240 then pgn + raw.getD 5 0 else pgn
  return { time := 0,
           header := { pgn := pgn, source := src, destination := dst, priority := prio },
           data := raw.drop 13 }

/-- Reader states of the DLE/STX escape state machine. -/
inductive ReaderState where
  | waitingStartOfMessage
  | readingMessageData
  | processingEscapeSequence
deriving DecidableEq

/-- One full `ReadRawMessage` call consuming the byte stream: returns
`some result` when a message parse is returned (successfully or with an
error), `none` when the stream ends first.  `message` is the accumulated
unescaped body (the Go code writes into a fixed 1785-byte array; exceeding
it would panic). -/
def readRawMessageLoop : List Nat → ReaderState → List Nat → Nat → Option (Res RawMsg)
  | [], _, _, _ => none
  | currentByte :: rest, state, message, previousByte =>
    match state with
    | .waitingStartOfMessage =>
      if previousByte = 0x10 ∧ currentByte = 0x02 then
        readRawMessageLoop rest .readingMessageData message currentByte
      else
        readRawMessageLoop rest .waitingStartOfMessage message currentByte
    | .readingMessageData =>
      if currentByte = 0x10 then
        readRawMessageLoop rest .processingEscapeSequence message currentByte
      else if message.length ≥ 1785 then some (.error .oobPanic)
      else readRawMessageLoop rest .readingMessageData (message ++ [currentByte]) currentByte
    | .processingEscapeSequence =>
      if currentByte = 0x10 then
        if message.length ≥ 1785 then some (.error .oobPanic)
        else readRawMessageLoop rest .readingMessageData (message ++ [currentByte]) currentByte
      else if currentByte = 0x03 then
        -- end of message: dispatch on message[0] (0 on empty, Go array zero value)
        let cmd := message.getD 0 0
        if cmd = 0x93 ∨ cmd = 0x94 then some (fromActisenseNGTBinaryMessage message)
        else if cmd = 0xD0 then some (fromActisenseN2KBinaryMessage message)
        else readRawMessageLoop rest .waitingStartOfMessage [] currentByte
      else readRawMessageLoop rest .waitingStartOfMessage [] currentByte

/-- `ReadRawMessage` on a byte stream from the initial reader state. -/
def ReadRawMessage (input : List Nat) : Option (Res RawMsg) :=
  readRawMessageLoop input .waitingStartOfMessage [] 0

/-! ## Address mapper (addressmapper package)

Go `*Node` pointers live in the `knownNodes` map and are aliased from the
bus slots; the heap is embedded by keying nodes by their 64-bit NAME and
storing that key in the slot.  `time.Time` values are `Nat` timestamps with
0 as the zero time (`IsZero`). -/

/-- PGN constants. -/
def PGNISORequest : Nat := 59904
def PGNISOAddressClaim : Nat := 60928
def PGNProductInfo : Nat := 126996
def PGNConfigurationInformation : Nat := 126998
def PGNPGNList : Nat := 126464

/-- Embeds `addressmapper.NodeName`. -/
structure NodeName where
  uniqueNumber : Nat
  manufacturer : Nat
  deviceInstanceLower : Nat
  deviceInstanceUpper : Nat
  deviceFunction : Nat
  deviceClass : Nat
  systemInstance : Nat
  industryGroup : Nat
  arbitraryAddressCapable : Nat
deriving DecidableEq

/-- Embeds `PGN60928ToNodeName`. -/
def PGN60928ToNodeName (raw : RawMsg) : Res NodeName := do
  if raw.header.pgn ≠ PGNISOAddressClaim then
    throw (.goError "device name can only be created from rawMessage with PGN 60928")
  let b := raw.data
  if b.length ≠ 8 then
    throw (.goError "rawMessage has invalid length to be ISO Address claim")
  return { uniqueNumber := (b.getD 2 0 &&& 0b11111) ||| (b.getD 1 0) <<< 8 ||| (b.getD 0 0) <<< 16
           manufacturer := (b.getD 3 0) <<< 3 ||| (b.getD 2 0) >>> 5
           deviceInstanceLower := b.getD 4 0 &&& 0b111
           deviceInstanceUpper := b.getD 4 0 >>> 3
           deviceFunction := b.getD 5 0
           deviceClass := b.getD 6 0 >>> 1
           systemInstance := b.getD 7 0 &&& 0b1111
           industryGroup := (b.getD 7 0 >>> 4) &&& 0b111
           arbitraryAddressCapable := b.getD 7 0 >>> 7 }

/-- Embeds `addressmapper.ProductInfo`. -/
structure ProductInfo where
  nmea2000Version : Nat
  productCode : Nat
  modelID : List Nat
  softwareVersionCode : List Nat
  modelVersion : List Nat
  modelSerialCode : List Nat
  certificationLevel : Nat
  loadEquivalency : Nat
deriving DecidableEq

def ProductInfo.zero : ProductInfo := ⟨0, 0, [], [], [], [], 0, 0⟩

/-- Embeds `PGN126996ToProductInfo` (noData sentinels on the two leading
numbers are tolerated and leave the zero value, as in the Go code). -/
def PGN126996ToProductInfo (raw : RawMsg) : Res ProductInfo := do
  if raw.header.pgn ≠ PGNProductInfo then
    throw (.goError "product info can only be created from rawMessage with PGN 126996")
  let b := raw.data
  if b.length ≠ 134 then
    throw (.goError "rawMessage has invalid length to be product info")
  let nmea2000Version ←
    match DecodeVariableUint b 0 16 with
    | .ok v => pure v
    | .error .noData => pure 0
    | .error _ => throw (.goError "failed to extract NMEA200 version for product info")
  let productCode ←
    match DecodeVariableUint b 16 16 with
    | .ok v => pure v
    | .error .noData => pure 0
    | .error _ => throw (.goError "failed to extract product code for product info")
  let modelID ← DecodeStringFix b 32 256
  let softwareVersionCode ← DecodeStringFix b 288 256
  let modelVersion ← DecodeStringFix b 544 256
  let modelSerialCode ← DecodeStringFix b 800 256
  return { nmea2000Version := nmea2000Version % 65536, productCode := productCode % 65536,
           modelID := modelID, softwareVersionCode := softwareVersionCode,
           modelVersion := modelVersion, modelSerialCode := modelSerialCode,
           certificationLevel := b.getD 132 0, loadEquivalency := b.getD 133 0 }

/-- Embeds `addressmapper.ConfigurationInfo`. -/
structure ConfigurationInfo where
  installationDesc1 : List Nat
  installationDesc2 : List Nat
  manufacturerInfo : List Nat
deriving DecidableEq

def ConfigurationInfo.zero : ConfigurationInfo := ⟨[], [], []⟩

/-- Embeds `PGN126998ToConfigurationInfo`. -/
def PGN126998ToConfigurationInfo (raw : RawMsg) : Res ConfigurationInfo := do
  if raw.header.pgn ≠ PGNConfigurationInformation then
    throw (.goError "configuration info can only be created from rawMessage with PGN 126998")
  let (instDesc1, offset) ← DecodeStringLAU raw.data 0
  let (instDesc2, offset) ← DecodeStringLAU raw.data offset
  let (manufInfo, _) ← DecodeStringLAU raw.data offset
  return { installationDesc1 := instDesc1, installationDesc2 := instDesc2,
           manufacturerInfo := manufInfo }

/-- Embeds `addressmapper.Node` (the `*Node` heap record). -/
structure MNode where
  source : Nat
  name64 : Nat
  nodeName : NodeName
  validName : Bool
  productInfo : ProductInfo
  validProductInfo : Bool
  configurationInfo : ConfigurationInfo
  validConfigurationInfo : Bool
deriving DecidableEq

/-- Zero `Node` value (dereferencing a slot pointer whose target is absent
from the map never happens in reachable states; the total model defaults to
this zero record). -/
def MNode.zero : MNode :=
  { source := 0, name64 := 0, nodeName := ⟨0,0,0,0,0,0,0,0,0⟩, validName := false,
    productInfo := ProductInfo.zero, validProductInfo := false,
    configurationInfo := ConfigurationInfo.zero, validConfigurationInfo := false }

/-- Embeds `busSlot`.  The slot's `*Node` pointer is the NAME key into
`knownNodes`; request/claim timestamps are `Nat` with 0 = `time.Time{}`. -/
structure BusSlot where
  node : Option Nat
  claimed : Nat
  productInfoRequested : Nat
  configInfoRequested : Nat
  pgnListRequested : Nat
  lastPacket : Int
deriving DecidableEq

def BusSlot.empty : BusSlot := ⟨none, 0, 0, 0, 0, 0⟩

/-- Embeds the mutable state of `AddressMapper` (directory + slots +
outbound request queue; the bounded channel is modelled as the list of
enqueued messages). -/
structure MapperState where
  writeEnabled : Bool
  knownNodes : Nat → Option MNode
  slots : Nat → Option BusSlot
  requests : List RawMsg

/-- `NewAddressMapper` state. -/
def MapperState.init (writeEnabled : Bool) : MapperState :=
  { writeEnabled := writeEnabled, knownNodes := fun _ => none,
    slots := fun _ => none, requests := [] }

/-- Point update of a NAME-keyed map. -/
def updNodes (m : Nat → Option MNode) (k : Nat) (v : Option MNode) : Nat → Option MNode :=
  fun x => if x = k then v else m x

/-- Point update of the slot array. -/
def updSlots (m : Nat → Option BusSlot) (k : Nat) (v : Option BusSlot) :
    Nat → Option BusSlot :=
  fun x => if x = k then v else m x

/-- `node.Source = v` through the map. -/
def setNodeSource (m : Nat → Option MNode) (k : Nat) (v : Nat) : Nat → Option MNode :=
  updNodes m k ((m k).map fun n => { n with source := v })

/-- Embeds `createISORequest`. -/
def createISORequest (forPGN destination : Nat) : RawMsg :=
  { time := 0,
    header := { pgn := PGNISORequest, priority := 6, source := AddressNull,
                destination := destination },
    data := [forPGN % 256, (forPGN >>> 8) % 256, (forPGN >>> 16) % 256] }

/-- Embeds `AddressMapper.processISOAddressClaim`.  Returns the updated
mapper state, the updated slot, and `isBusNodeChanged` (or the Go error). -/
def processISOAddressClaim (st : MapperState) (slot : BusSlot) (raw : RawMsg) (now : Nat) :
    MapperState × BusSlot × Res Bool :=
  match PGN60928ToNodeName raw with
  | .error e => (st, slot, .error e)
  | .ok name =>
    let source := raw.header.source
    let NAME := le64 raw.data
    let nodes :=
      match st.knownNodes NAME with
      | some _ => st.knownNodes
      | none =>
        updNodes st.knownNodes NAME (some
          { source := source, name64 := NAME, nodeName := name, validName := true,
            productInfo := ProductInfo.zero, validProductInfo := false,
            configurationInfo := ConfigurationInfo.zero, validConfigurationInfo := false })
    let st := { st with knownNodes := nodes }
    let (st, slot, isBusNodeChanged) :=
      match slot.node with
      | none =>
        ({ st with knownNodes := setNodeSource st.knownNodes NAME source },
         { slot with node := some NAME, claimed := now }, true)
      | some oldNAME =>
        let oldNode := (st.knownNodes oldNAME).getD MNode.zero
        let currentNAME := ((st.knownNodes NAME).getD MNode.zero).name64
        if oldNode.validName ∧ currentNAME < oldNode.name64 then
          let nodes := setNodeSource st.knownNodes oldNAME AddressNull
          let nodes := setNodeSource nodes NAME source
          ({ st with knownNodes := nodes },
           { slot with node := some NAME, claimed := now }, true)
        else (st, slot, false)
    if st.writeEnabled ∧ slot.productInfoRequested = 0 then
      ({ st with requests := st.requests ++ [createISORequest PGNProductInfo source] },
       { slot with productInfoRequested := now }, .ok isBusNodeChanged)
    else (st, slot, .ok isBusNodeChanged)

/-- Embeds `AddressMapper.processProductInfo` (note: the guard tests the
slot node's `ValidName`, exactly as the Go code does). -/
def processProductInfo (st : MapperState) (slot : BusSlot) (raw : RawMsg) (now : Nat) :
    MapperState × BusSlot × Res Unit :=
  match slot.node with
  | none => (st, slot, .ok ())
  | some nm =>
    if ((st.knownNodes nm).map (·.validName)).getD false then (st, slot, .ok ())
    else
      match PGN126996ToProductInfo raw with
      | .error e => (st, slot, .error e)
      | .ok info =>
        let nodes := updNodes st.knownNodes nm ((st.knownNodes nm).map fun n =>
          { n with productInfo := info, validProductInfo := true })
        let st := { st with knownNodes := nodes }
        if st.writeEnabled ∧ slot.configInfoRequested = 0 then
          ({ st with requests := st.requests ++
              [createISORequest PGNConfigurationInformation raw.header.source] },
           { slot with configInfoRequested := now }, .ok ())
        else (st, slot, .ok ())

/-- Embeds `AddressMapper.processConfigurationInfo` (same `ValidName`
guard pattern). -/
def processConfigurationInfo (st : MapperState) (slot : BusSlot) (raw : RawMsg) (now : Nat) :
    MapperState × BusSlot × Res Unit :=
  match slot.node with
  | none => (st, slot, .ok ())
  | some nm =>
    if ((st.knownNodes nm).map (·.validName)).getD false then (st, slot, .ok ())
    else
      match PGN126998ToConfigurationInfo raw with
      | .error e => (st, slot, .error e)
      | .ok ci =>
        let nodes := updNodes st.knownNodes nm ((st.knownNodes nm).map fun n =>
          { n with configurationInfo := ci, validConfigurationInfo := true })
        let st := { st with knownNodes := nodes }
        if st.writeEnabled ∧ slot.pgnListRequested = 0 then
          ({ st with requests := st.requests ++
              [createISORequest PGNPGNList raw.header.source] },
           { slot with pgnListRequested := now }, .ok ())
        else (st, slot, .ok ())

/-- Embeds `AddressMapper.processPGNList` (acknowledged, nothing stored). -/
def processPGNList (st : MapperState) (slot : BusSlot) : MapperState × BusSlot × Res Unit :=
  (st, slot, .ok ())

/-- The PGN switch of `AddressMapper.Process`. -/
def processDispatch (st : MapperState) (slot : BusSlot) (raw : RawMsg) (now : Nat) :
    MapperState × BusSlot × Res Bool :=
  if raw.header.pgn = PGNISOAddressClaim then
    processISOAddressClaim st slot raw now
  else if raw.header.pgn = PGNProductInfo then
    let r := processProductInfo st slot raw now
    (r.1, r.2.1, r.2.2.map fun _ => false)
  else if raw.header.pgn = PGNConfigurationInformation then
    let r := processConfigurationInfo st slot raw now
    (r.1, r.2.1, r.2.2.map fun _ => false)
  else if raw.header.pgn = PGNPGNList then
    let r := processPGNList st slot
    (r.1, r.2.1, r.2.2.map fun _ => false)
  else (st, slot, .ok false)

/-- Embeds `AddressMapper.Process`.  `now` is the mapper's clock at this
call.  Returns the new state and `(isBusNodeChanged, error)`.  Sources ≥ 254
use a throwaway slot; otherwise the slot is created, stored, and its
lastPacket stamped before dispatch (the Go code stores a pointer, so slot
mutations made by the handlers persist; here the slot is stored back after
dispatch, which is equivalent because no handler errors after mutating). -/
def Process (st : MapperState) (raw : RawMsg) (now : Nat) : MapperState × Res Bool :=
  if raw.header.source < AddressNull then
    let slot := { (st.slots raw.header.source).getD BusSlot.empty with lastPacket := raw.time }
    let r := processDispatch
      { st with slots := updSlots st.slots raw.header.source (some slot) } slot raw now
    ({ r.1 with slots := updSlots r.1.slots raw.header.source (some r.2.1) }, r.2.2)
  else
    ((processDispatch st BusSlot.empty raw now).1,
      (processDispatch st BusSlot.empty raw now).2.2)

/-- A sequence of `Process` calls (message with its clock reading). -/
def processList (st : MapperState) : List (RawMsg × Nat) → MapperState
  | [] => st
  | (m, now) :: rest => processList (Process st m now).1 rest

/-! ## Test drivers (play the role of the Go test loops) -/

/-- Feed frames to the assembler one after another, collecting the
completion flag and produced message of every call. -/
def assembleRun (now : Int) (st : FPAState) :
    List RawFrame → Res (FPAState × List (Bool × Option RawMsg))
  | [] => .ok (st, [])
  | f :: rest =>
    match Assemble st f now with
    | .error e => .error e
    | .ok (st2, c, m) =>
      match assembleRun now st2 rest with
      | .error e => .error e
      | .ok (st3, out) => .ok (st3, (c, m) :: out)

/-! ## Proof support -/

theorem res_bind_ok {α β : Type} (a : α) (f : α → Res β) :
    (Except.ok a : Res α) >>= f = f a := rfl

theorem res_bind_error {α β : Type} (e : DErr) (f : α → Res β) :
    (Except.error e : Res α) >>= f = Except.error e := rfl

theorem res_map_ok {α β : Type} (a : α) (f : α → β) :
    (Except.ok a : Res α).map f = Except.ok (f a) := rfl

theorem res_pure {α : Type} (a : α) : (pure a : Res α) = Except.ok a := rfl

/-- Disjoint bit ranges: `or` is addition when one side lies below the
other's alignment. -/
theorem lor_eq_add_of_lt {k a b : Nat} (ha : a < 2 ^ k) (hb : 2 ^ k ∣ b) :
    a ||| b = a + b := by
  obtain ⟨c, rfl⟩ := hb
  rw [Nat.lor_comm, ← Nat.mul_add_lt_is_or ha c, Nat.add_comm]

theorem and_seven (x : Nat) : x &&& 7 = x % 8 := by
  have h := Nat.and_pow_two_sub_one_eq_mod x 3
  norm_num at h
  exact h

theorem and_three (x : Nat) : x &&& 3 = x % 4 := by
  have h := Nat.and_pow_two_sub_one_eq_mod x 2
  norm_num at h
  exact h

/-! ## Claim C8: Actisense binary frame decode -/

/-- The concrete byte stream of claim C8. -/
def c8Input : List Nat :=
  [0x10, 0x02, 0x93, 0x13, 0x02, 0x01, 0xF8, 0x01, 0xFF, 0x7F, 0xAF, 0x3A, 0x0A, 0x09,
   0x08, 0xE7, 0x15, 0xB3, 0x22, 0xC3, 0x18, 0x59, 0x0D, 0xCA, 0x10, 0x03]

/-- Claim C8: feeding the byte stream
`10 02 93 13 02 01 F8 01 FF 7F AF 3A 0A 09 08 E7 15 B3 22 C3 18 59 0D CA 10 03`
to the Actisense binary-format reader passes the CRC check (the sum of
command, length, data and CRC bytes is 0 mod 256) and produces a RawMessage
with PGN 129025, priority 2, source 127, destination 255 and payload
`E7 15 B3 22 C3 18 59 0D`. -/
theorem c8_actisense_binary_frame :
    actisenseCrc (c8Input.drop 2 |>.dropLast.dropLast) = 0 ∧
    ReadRawMessage c8Input =
      some (.ok { time := 0,
                  header := { pgn := 129025, priority := 2, source := 127, destination := 255 },
                  data := [0xE7, 0x15, 0xB3, 0x22, 0xC3, 0x18, 0x59, 0x0D] }) := by
  constructor
  · decide
  · decide

/-! ## Claim C10: string decoders are not panic-free -/

/-- Claim C10 (refuting theorem for the code-bug record): the RawData
string decoders are not total.  `DecodeStringLZ` on the one-byte buffer
`[0x41]` at bit offset 8 reads its length-prefix byte at index 1, out of
bounds; `DecodeStringLAU` on `[0x05, 0x00, 0x41]` at offset 0 declares a
3-byte UTF-16 payload of which only one byte exists, and the byte-order-mark
probe reads index 1 of the 1-byte extracted slice.  Both are Go runtime
panics (index out of range), not error returns. -/
theorem c10_string_decoders_can_panic :
    DecodeStringLZ [0x41] 8 8 = .error .oobPanic ∧
    DecodeStringLAU [0x05, 0x00, 0x41] 0 = .error .oobPanic := by
  constructor
  · decide
  · decide

/-! ## Claim C4: fast-packet frame-count off-by-one -/

/-- Header used by the C4/C6 fast-packet scenarios (PGN 130323 is in the
assembler's configured set and ≥ 0x1ED00). -/
def fpHeader : CanBusHeader := ⟨130323, 6, 35, 255⟩

/-- Empty assembler configured for PGN 130323. -/
def fpState0 : FPAState := ⟨[130323], [], []⟩

/-- Frame 0 of a 13-byte fast-packet payload `01 02 ... 0D`: length byte 13
and the first 6 payload bytes. -/
def c4Frame0 : RawFrame := ⟨0, fpHeader, 8, [0x60, 13, 1, 2, 3, 4, 5, 6]⟩

/-- Frame 1 carrying the remaining 7 payload bytes. -/
def c4Frame1 : RawFrame := ⟨0, fpHeader, 8, [0x61, 7, 8, 9, 10, 11, 12, 13]⟩

/-- Claim C4 (refuting theorem for the code-bug record): the two frames of a
13-byte fast-packet payload carry the whole payload, yet `Assemble` never
reports completion: frame 0's `frameCount` computation `1 + (13-6+7)/7 = 3`
(instead of `1 + ceil((13-6)/7) = 2`) makes the complete mask `0b111` while
only frames 0 and 1 (mask `0b11`) can ever arrive. -/
theorem c4_thirteen_byte_payload_never_completes :
    (assembleRun 0 fpState0 [c4Frame0, c4Frame1]).map
        (fun r => ((r.2.map Prod.fst),
                   r.1.inTransfer.map fun s => (s.receivedFramesMask, s.completeFramesMask)))
      = .ok ([false, false], [(0b11, 0b111)]) := by
  decide

/-! ## Claim C5: product info is never recorded -/

/-- ISO address claim from source 3 with NAME = 1. -/
def c5Claim : RawMsg := ⟨0, ⟨60928, 6, 3, 255⟩, [1, 0, 0, 0, 0, 0, 0, 0]⟩

/-- A well-formed PGN 126996 Product Info message from source 3 (134 data
bytes). -/
def c5ProdMsg : RawMsg := ⟨0, ⟨126996, 6, 3, 255⟩, List.replicate 134 0x20⟩

set_option maxRecDepth 100000 in
/-- Claim C5 (refuting theorem for the code-bug record): with writes
enabled, after an address claim from source 3 and a parseable Product Info
message from the same source, the slot's node still has
`ValidProductInfo = false` and no ISO request for PGN 126998 was enqueued —
`processProductInfo` early-returns because it tests the node's `ValidName`
flag (always true for slot owners) instead of `ValidProductInfo`. -/
theorem c5_product_info_never_recorded :
    (match PGN126996ToProductInfo c5ProdMsg with | .ok _ => true | .error _ => false) = true ∧
    (((processList (MapperState.init true) [(c5Claim, 5), (c5ProdMsg, 6)]).knownNodes 1).map
        MNode.validProductInfo = some false) ∧
    (processList (MapperState.init true) [(c5Claim, 5), (c5ProdMsg, 6)]).requests
      = [createISORequest PGNProductInfo 3] := by
  refine ⟨by decide, by decide, by decide⟩

/-! ## Claim C1: NUMBER field post-scaling -/

/-- An unsigned NUMBER field with offset 1 and resolution 1/2 (both exactly
representable in float64, and the Go float computation below is exact). -/
def c1Field : Field :=
  { id := "n", bitLength := 8, bitOffset := 0, bitLengthVariable := false,
    signed := false, offset := 1, resolution := 1/2, fieldType := .number, match_ := 0 }

/-- Claim C1 counterexample: on the one-byte buffer `[0x00]` the raw value
decodes to 0 without a sentinel, and the decoder produces
`(raw + offset) × resolution = (0+1) × 0.5 = 0.5`, not the claimed
`offset + raw × resolution = 1 + 0 × 0.5 = 1` (all values exact in
float64, so the rational model agrees with the Go floats here). -/
theorem c1_number_scaling_counterexample :
    DecodeVariableUint [0x00] 0 8 = .ok 0 ∧
    Field.decodeNumber c1Field [0x00] 0 = .ok ⟨"n", "FLOAT64", .f64 (1/2)⟩ ∧
    (1/2 : ℚ) ≠ (c1Field.offset : ℚ) + 0 * c1Field.resolution := by
  have h0 : DecodeVariableUint [0x00] 0 8 = .ok 0 := by decide
  refine ⟨h0, ?_, ?_⟩
  · unfold Field.decodeNumber
    rw [show c1Field.signed = false from rfl, show c1Field.bitLength = 8 from rfl]
    simp only [Bool.false_eq_true, if_false, h0, res_bind_ok, res_pure]
    have hres : ¬ (c1Field.resolution = 1) := by norm_num [c1Field]
    rw [if_neg hres]
    rw [show add64 0 (int32ToU64 c1Field.offset) = 1 from by decide]
    norm_num [c1Field]
  · norm_num [c1Field]

/-- Claim C1 as amended: for every NUMBER field whose raw value decodes
without a sentinel error, the decoder produces
`value = (raw + offset) × resolution` — the offset is added to the raw
value before scaling; with `resolution == 1` the result is the integral
`raw + offset` (signed or unsigned according to the field), and otherwise a
float64 (exact rational here) equal to `(raw + offset) × resolution`.
The numeric hypotheses keep `raw + offset` inside the Go integer types so
the wrapped machine addition coincides with the mathematical sum. -/
theorem c1_number_scaling (f : Field) (d : List Nat) (off : Nat)
    (hoffLo : -(2 ^ 31) ≤ f.offset) (hoffHi : f.offset < 2 ^ 31) :
    (∀ raw : Nat, f.signed = false →
      DecodeVariableUint d off f.bitLength = .ok raw →
      0 ≤ (raw : Int) + f.offset → (raw : Int) + f.offset < 2 ^ 64 →
      Field.decodeNumber f d off = .ok
        { id := f.id,
          type := if f.resolution = 1 then "UINT64" else "FLOAT64",
          value := if f.resolution = 1 then .u64 ((raw : Int) + f.offset).toNat
                   else .f64 ((((raw : Int) + f.offset : Int) : ℚ) * f.resolution) }) ∧
    (∀ raw : Int, f.signed = true →
      DecodeVariableInt d off f.bitLength = .ok raw →
      -(2 ^ 63) ≤ raw + f.offset → raw + f.offset < 2 ^ 63 →
      Field.decodeNumber f d off = .ok
        { id := f.id,
          type := if f.resolution = 1 then "INT64" else "FLOAT64",
          value := if f.resolution = 1 then .i64 (raw + f.offset)
                   else .f64 (((raw + f.offset : Int) : ℚ) * f.resolution) }) := by
  constructor
  · intro raw hsg hdec hlo hhi
    have hadd : add64 raw (int32ToU64 f.offset) = ((raw : Int) + f.offset).toNat := by
      unfold add64 int32ToU64
      omega
    unfold Field.decodeNumber
    rw [hsg]
    simp only [Bool.false_eq_true, if_false, hdec, res_bind_ok, res_pure]
    rw [hadd]
    by_cases hres : f.resolution = 1
    · rw [if_pos hres, if_pos hres, if_pos hres]
    · rw [if_neg hres, if_neg hres, if_neg hres]
      have hcast : ((((raw : Int) + f.offset).toNat : ℚ)) = (((raw : Int) + f.offset : Int) : ℚ) := by
        have h2 := Int.toNat_of_nonneg hlo
        exact_mod_cast congrArg (fun z : Int => (z : ℚ)) h2
      rw [hcast]
  · intro raw hsg hdec hlo hhi
    have hadd : addInt64 raw f.offset = raw + f.offset := by
      unfold addInt64
      omega
    unfold Field.decodeNumber
    rw [hsg]
    simp only [if_true, hdec, res_bind_ok, res_pure]
    rw [hadd]
    by_cases hres : f.resolution = 1
    · rw [if_pos hres, if_pos hres, if_pos hres]
    · rw [if_neg hres, if_neg hres, if_neg hres]

/-- Field used by the C1 witness: signed, offset −5, resolution 1/4. -/
def c1WitnessField : Field :=
  { id := "w", bitLength := 8, bitOffset := 0, bitLengthVariable := false,
    signed := true, offset := -5, resolution := 1/4, fieldType := .number, match_ := 0 }

/-- Witness for the amended claim C1 at a concrete input: raw = 9,
offset = −5, resolution = 1/4 gives (9 − 5) × 1/4 = 1. -/
theorem c1_number_scaling_witness :
    Field.decodeNumber c1WitnessField [0x09] 0 = .ok ⟨"w", "FLOAT64", .f64 1⟩ := by
  have h := (c1_number_scaling c1WitnessField [0x09] 0 (by decide) (by decide)).2
      9 rfl (by decide) (by decide) (by decide)
  norm_num [c1WitnessField] at h
  exact h

/-! ## Claim C2: CAN identifier round trip -/

/-- Claim C2 counterexample: the 29-bit identifier `0x00F00001` has
PDU-format `0xF0 ≥ 240`, so `ParseCANID` gives the broadcast destination
`0xFF` (the claim's consistency proviso); yet packing the parsed header
back yields `0x00F0FF01 ≠ 0x00F00001`, because `Uint32` tests the PGN's
*low* byte (`0x00 < 240`) and ORs the `0xFF` destination into the PS byte. -/
theorem c2_roundtrip_counterexample :
    (ParseCANID 0x00F00001).destination = 0xFF ∧
    CanBusHeader.Uint32 (ParseCANID 0x00F00001) = 0x00F0FF01 ∧
    (0x00F0FF01 : Nat) ≠ 0x00F00001 := by
  refine ⟨by decide, by decide, by decide⟩

/-- Claim C2 as amended: for every 29-bit CAN identifier whose PDU-format
is addressed (`PF < 240`), or whose PS byte is itself `≥ 240` in the
broadcast case, `Uint32 (ParseCANID id) = id`.  (For `PF ≥ 240` with
`PS < 240` the round trip fails, as the counterexample shows.) -/
theorem c2_parse_pack_roundtrip (id : Nat) (h29 : id < 2 ^ 29)
    (hcons : (id >>> 16) % 256 < 240 ∨ 240 ≤ (id >>> 8) % 256) :
    CanBusHeader.Uint32 (ParseCANID id) = id := by
  simp only [Nat.shiftRight_eq_div_pow] at hcons
  have hsrc : id % 256 < 2 ^ 8 := by omega
  have hps : id / 2 ^ 8 % 256 < 256 := Nat.mod_lt _ (by norm_num)
  have hpf : id / 2 ^ 16 % 256 < 256 := Nat.mod_lt _ (by norm_num)
  have hr : id / 2 ^ 24 % 4 < 4 := Nat.mod_lt _ (by norm_num)
  have hprio : id / 2 ^ 26 < 8 := by omega
  have hdecomp : id = id / 2 ^ 26 * 2 ^ 26 + id / 2 ^ 24 % 4 * 2 ^ 24 +
      id / 2 ^ 16 % 256 * 2 ^ 16 + id / 2 ^ 8 % 256 * 2 ^ 8 + id % 256 := by
    omega
  unfold ParseCANID
  simp only [Nat.shiftRight_eq_div_pow, Nat.shiftLeft_eq, and_seven, and_three]
  rcases hcons with hpf240 | hps240
  · rw [if_pos hpf240]
    unfold CanBusHeader.Uint32
    simp only [Nat.shiftLeft_eq, and_seven]
    have hpgnlow : (id / 2 ^ 24 % 4 * 2 ^ 16 + id / 2 ^ 16 % 256 * 2 ^ 8) % 256 = 0 := by
      omega
    rw [if_pos (by rw [hpgnlow]; norm_num)]
    rw [lor_eq_add_of_lt (k := 8) hsrc ⟨id / 2 ^ 8 % 256, by ring⟩]
    rw [lor_eq_add_of_lt (k := 16)
        (by omega : id % 256 + id / 2 ^ 8 % 256 * 2 ^ 8 < 2 ^ 16)
        ⟨id / 2 ^ 24 % 4 * 2 ^ 8 + id / 2 ^ 16 % 256, by ring⟩]
    rw [lor_eq_add_of_lt (k := 26) (by omega)
        ⟨id / 2 ^ 26 % 8, by omega⟩]
    have hp8 : id / 2 ^ 26 % 8 = id / 2 ^ 26 := Nat.mod_eq_of_lt hprio
    rw [hp8]
    omega
  · have hpf240 : ¬ (id / 2 ^ 16 % 256 < 240) ∨ id / 2 ^ 16 % 256 < 240 := by tauto
    rcases hpf240 with hge | hlt
    · rw [if_neg hge]
      unfold CanBusHeader.Uint32
      simp only [Nat.shiftLeft_eq, and_seven]
      have hpgnlow : (id / 2 ^ 24 % 4 * 2 ^ 16 + id / 2 ^ 16 % 256 * 2 ^ 8 +
          id / 2 ^ 8 % 256) % 256 = id / 2 ^ 8 % 256 := by
        omega
      rw [if_neg (by rw [hpgnlow]; omega)]
      rw [lor_eq_add_of_lt (k := 8) hsrc
          ⟨id / 2 ^ 24 % 4 * 2 ^ 16 + id / 2 ^ 16 % 256 * 2 ^ 8 + id / 2 ^ 8 % 256, by ring⟩]
      rw [lor_eq_add_of_lt (k := 26) (by omega) ⟨id / 2 ^ 26 % 8, by omega⟩]
      have hp8 : id / 2 ^ 26 % 8 = id / 2 ^ 26 := Nat.mod_eq_of_lt hprio
      rw [hp8]
      omega
    · rw [if_pos hlt]
      unfold CanBusHeader.Uint32
      simp only [Nat.shiftLeft_eq, and_seven]
      have hpgnlow : (id / 2 ^ 24 % 4 * 2 ^ 16 + id / 2 ^ 16 % 256 * 2 ^ 8) % 256 = 0 := by
        omega
      rw [if_pos (by rw [hpgnlow]; norm_num)]
      rw [lor_eq_add_of_lt (k := 8) hsrc ⟨id / 2 ^ 8 % 256, by ring⟩]
      rw [lor_eq_add_of_lt (k := 16)
          (by omega : id % 256 + id / 2 ^ 8 % 256 * 2 ^ 8 < 2 ^ 16)
          ⟨id / 2 ^ 24 % 4 * 2 ^ 8 + id / 2 ^ 16 % 256, by ring⟩]
      rw [lor_eq_add_of_lt (k := 26) (by omega) ⟨id / 2 ^ 26 % 8, by omega⟩]
      have hp8 : id / 2 ^ 26 % 8 = id / 2 ^ 26 := Nat.mod_eq_of_lt hprio
      rw [hp8]
      omega

/-- Witness for the amended claim C2 at the spec's own concrete scenario
`0x0F001DA1` (PDU-format 0x00 < 240). -/
theorem c2_parse_pack_roundtrip_witness :
    CanBusHeader.Uint32 (ParseCANID 0x0F001DA1) = 0x0F001DA1 :=
  c2_parse_pack_roundtrip 0x0F001DA1 (by decide) (Or.inl (by decide))

/-! ## Claim C6: pool buffer is taken for any frame number -/

/-- When no in-transfer sequence matches the frame's key, the match loop
returns the list unchanged and no index. -/
theorem scanInTransfer_no_match (src pgn seqId : Nat) (threshold : Int)
    (l : List FPSeq) (base : Nat)
    (h : ∀ s ∈ l, ¬(s.header.source = src ∧ s.header.pgn = pgn ∧ s.seqId = seqId)) :
    scanInTransfer src pgn seqId threshold l base = (l, none) := by
  induction l generalizing base with
  | nil => rfl
  | cons s rest ih =>
    unfold scanInTransfer
    rw [ih (base + 1) (fun t ht => h t (List.mem_cons_of_mem s ht))]
    simp only [if_neg (h s (List.mem_cons_self s rest))]

/-- Claim C6 counterexample: an empty assembler receives a frame with frame
number 1 (first byte `0x61`) for configured fast-packet PGN 130323; a
buffer is taken and a new in-flight sequence is created even though the
frame number is not 0. -/
theorem c6_nonzero_frame_counterexample :
    (Assemble fpState0 c4Frame1 0).map
        (fun r => (r.1.inTransfer.length, r.2.1, r.2.2)) = .ok (1, false, none) ∧
    (c4Frame1.data.getD 0 0) &&& 0x1F ≠ 0 := by
  refine ⟨by decide, by decide⟩

/-- Claim C6 as amended: whenever a frame for a configured fast-packet PGN
arrives and no in-flight sequence matches its (source, PGN, sequence-tag)
triple, a buffer is taken from the pool and a new in-flight sequence is
created regardless of the frame number; with a non-zero frame number the
call never completes a message, so the in-transfer list grows by exactly
one. -/
theorem c6_buffer_taken_without_frame_zero (a : FPAState) (f : RawFrame) (now : Int)
    (hfp : (couldBeFastPacket f.header.pgn && a.pgns.contains f.header.pgn) = true)
    (hnomatch : ∀ s ∈ a.inTransfer,
      ¬(s.header.source = f.header.source ∧ s.header.pgn = f.header.pgn ∧
        s.seqId = (f.data.getD 0 0) >>> 5))
    (hfn : (f.data.getD 0 0) &&& 0x1F ≠ 0) :
    (Assemble a f now).map (fun r => (r.1.inTransfer.length, r.2.1, r.2.2)) =
      .ok (a.inTransfer.length + 1, false, none) := by
  have happ : ∀ fp0 : FPSeq, (FPSeq.Append (FPSeq.Reset fp0) f).2 = false := by
    intro fp0
    unfold FPSeq.Append FPSeq.Reset
    by_cases hl : f.length < 2
    · rw [if_pos hl]
    · rw [if_neg hl]
      simp only [Nat.zero_and, ne_eq, not_true_eq_false, not_false_eq_true, if_pos,
        if_true, if_neg hfn]
      rw [if_neg (by simp)]
      simp only [if_pos rfl, if_neg hfn, Nat.zero_or, Nat.shiftLeft_eq, one_mul]
      exact decide_eq_false fun hc => (Nat.two_pow_pos _).ne' hc.symm
  unfold Assemble
  rw [if_neg (by rw [hfp]; simp)]
  rcases hpool : a.pool with _ | ⟨p, ps⟩ <;>
    simp only [hpool, scanInTransfer_no_match _ _ _ _ _ _ hnomatch, happ,
      Bool.false_eq_true, if_false, res_map_ok, Except.ok.injEq, List.length_set,
      List.length_append, List.length_cons, List.length_nil]

/-- Witness for the amended claim C6 at the concrete counterexample
state and frame. -/
theorem c6_buffer_taken_witness :
    (Assemble fpState0 c4Frame1 0).map
        (fun r => (r.1.inTransfer.length, r.2.1, r.2.2)) = .ok (1, false, none) := by
  have h := c6_buffer_taken_without_frame_zero fpState0 c4Frame1 0 (by decide)
      (by intro s hs; simp [fpState0] at hs) (by decide)
  simpa [fpState0] using h

/-! ## Claim C9: length-prefixed string decoding -/

theorem goIndex_lt {l : List Nat} {i : Nat} (h : i < l.length) :
    goIndex l i = .ok (l.get ⟨i, h⟩) := by
  unfold goIndex
  rw [dif_pos h]

/-- On byte-aligned offsets and whole-byte lengths inside the buffer,
`DecodeBytes` returns exactly the byte slice. -/
theorem decodeBytes_aligned (d : List Nat) (k n : Nat) (v : Bool)
    (hn : 1 ≤ n) (hlen : k + n ≤ d.length) (hbits : 8 * (k + n) ≤ 65535) :
    DecodeBytes d (8 * k) (8 * n) v = .ok ((d.drop k).take n, 8 * n) := by
  have hklen : k < d.length := by omega
  have hE : add16 (add16 (8 * k) (8 * n)) 65535 / 8 = k + n - 1 := by
    unfold add16
    omega
  have hL : add16 (8 * n) 7 / 8 = n := by
    unfold add16
    omega
  have hsb : 8 * k / 8 = k := by omega
  have hbit : 8 * k % 8 = 0 := by omega
  unfold DecodeBytes
  rw [hE, hsb, hbit]
  rw [if_neg (by omega :
    ¬ ((↑(k + n - 1) : Int) > (d.length : Int) - 1))]
  simp only [res_pure, res_bind_ok, hL]
  rcases Nat.lt_or_ge n 2 with h2 | h2
  · have hn1 : n = 1 := by omega
    subst hn1
    rw [if_pos (by omega : k = k + 1 - 1)]
    rw [goIndex_lt hklen]
    simp only [res_bind_ok]
    rw [if_neg (by omega : ¬ (8 * 1 % 8 ≠ 0))]
    rw [show goSet (List.replicate 1 0) 0 (d.get ⟨k, hklen⟩ >>> 0) =
        .ok [d.get ⟨k, hklen⟩ >>> 0] from by unfold goSet; simp]
    simp only [res_bind_ok, res_pure, Nat.shiftRight_zero]
    rw [List.drop_eq_getElem_cons hklen]
    rfl
  · rw [if_neg (by omega : ¬ (k = k + n - 1))]
    rw [if_neg (by omega : ¬ ((0 : Nat) ≠ 0))]
    have he1 : k + n - 1 + 1 = k + n := by omega
    rw [he1]
    rw [show goSlice d k (k + n) = .ok ((d.drop k).take n) from by
      unfold goSlice
      rw [if_pos ⟨by omega, by omega⟩, show k + n - k = n from by omega]]
    simp only [res_bind_ok]
    have hsrc : ((d.drop k).take n).length = n := by
      rw [List.length_take, List.length_drop]
      omega
    have h1 : List.take (List.replicate n (0 : Nat)).length ((d.drop k).take n) =
        (d.drop k).take n := by
      rw [List.length_replicate]
      exact List.take_of_length_le (le_of_eq hsrc)
    have h2 : List.drop ((d.drop k).take n).length (List.replicate n (0 : Nat)) = [] := by
      rw [hsrc]
      exact List.drop_eq_nil_of_le (by simp)
    rw [show goCopy (List.replicate n 0) ((d.drop k).take n) = (d.drop k).take n from by
      unfold goCopy
      rw [h1, h2, List.append_nil]]
    rw [if_neg (by omega : ¬ (8 * n % 8 ≠ 0))]

/-- Claim C9 counterexample: on buffer `[0x01, 0x41]` with max length 8
bits, the prefix byte is 1 and the returned string is the 1 byte `0x41`,
but `bits_consumed` is 8 (the string bits only) — the 8 prefix bits are not
added, where the claim requires `8 + 8×1 = 16`. -/
theorem c9_string_lz_counterexample :
    DecodeStringLZ [0x01, 0x41] 0 8 = .ok ([0x41], 8) ∧ (8 : Nat) ≠ 8 + 8 * 1 := by
  refine ⟨by decide, by decide⟩

/-- Claim C9 as amended: for every buffer and byte-aligned bit offset at
which the length-prefix byte exists, with a whole-byte max length,
`DecodeStringLZ` returns the `n = min (prefix byte) (max_length_bits/8)`
bytes following the prefix (when the buffer holds them) and reports
`bits_consumed = 8×n` — the prefix byte is not counted; when the prefix
byte is 0 it returns the empty string with 8 bits consumed. -/
theorem c9_decode_string_lz (d : List Nat) (k maxBytes : Nat) (hk : k < d.length)
    (hmax8 : 8 * maxBytes ≤ 65528) :
    (d.get ⟨k, hk⟩ = 0 → DecodeStringLZ d (8 * k) (8 * maxBytes) = .ok ([], 8)) ∧
    (1 ≤ min (d.get ⟨k, hk⟩) maxBytes →
     k + 1 + min (d.get ⟨k, hk⟩) maxBytes ≤ d.length →
     8 * (k + 1 + min (d.get ⟨k, hk⟩) maxBytes) ≤ 65535 →
     DecodeStringLZ d (8 * k) (8 * maxBytes) =
       .ok ((d.drop (k + 1)).take (min (d.get ⟨k, hk⟩) maxBytes),
            8 * min (d.get ⟨k, hk⟩) maxBytes)) := by
  have hsb : 8 * k / 8 = k := by omega
  have hFL : add16 (8 * maxBytes) 7 / 8 = maxBytes := by
    unfold add16
    omega
  constructor
  · intro h0
    unfold DecodeStringLZ
    rw [hsb]
    simp only [goIndex_lt hk, res_bind_ok, hFL, h0]
    rw [if_neg (by omega : ¬ ((0 : Nat) > maxBytes))]
    rfl
  · intro hn1 hlen hbits
    unfold DecodeStringLZ
    rw [hsb]
    simp only [goIndex_lt hk, res_bind_ok, hFL]
    have hoff : add16 (8 * k) 8 = 8 * (k + 1) := by
      unfold add16
      omega
    rcases Nat.lt_or_ge maxBytes (d.get ⟨k, hk⟩) with hcap | hcap
    · have hmin : min (d.get ⟨k, hk⟩) maxBytes = maxBytes := by omega
      rw [hmin] at hn1 hlen hbits ⊢
      rw [if_pos (by omega : d.get ⟨k, hk⟩ > maxBytes)]
      simp only [res_bind_ok, res_pure]
      rw [hoff, show u16 (maxBytes * 8) = 8 * maxBytes from by unfold u16; omega]
      rw [decodeBytes_aligned d (k + 1) maxBytes true hn1 (by omega) (by omega)]
      rfl
    · have hmin : min (d.get ⟨k, hk⟩) maxBytes = d.get ⟨k, hk⟩ := by omega
      rw [hmin] at hn1 hlen hbits ⊢
      rw [if_neg (by omega : ¬ (d.get ⟨k, hk⟩ > maxBytes))]
      rw [if_neg (by omega : ¬ (d.get ⟨k, hk⟩ = 0))]
      simp only [res_bind_ok, res_pure]
      rw [hoff, show u16 (d.get ⟨k, hk⟩ * 8) = 8 * d.get ⟨k, hk⟩ from by unfold u16; omega]
      rw [decodeBytes_aligned d (k + 1) (d.get ⟨k, hk⟩) true hn1 (by omega) (by omega)]
      rfl

/-- Witness for the amended claim C9 at a concrete input: buffer
`[0x02, 0x41, 0x42, 0x43]`, offset 0, max 3 bytes → string `0x41 0x42`
with 16 bits consumed (and the empty-prefix case on `[0x00]`). -/
theorem c9_decode_string_lz_witness :
    DecodeStringLZ [0x00] 0 24 = .ok ([], 8) ∧
    DecodeStringLZ [0x02, 0x41, 0x42, 0x43] 0 24 = .ok ([0x41, 0x42], 16) := by
  constructor
  · have h := (c9_decode_string_lz [0x00] 0 3 (by decide) (by decide)).1 (by decide)
    simpa using h
  · have h := (c9_decode_string_lz [0x02, 0x41, 0x42, 0x43] 0 3 (by decide) (by decide)).2
        (by decide) (by decide) (by decide)
    simpa using h

/-! ## Claim C7: sentinel errors skip the field, other errors abort -/

/-- Claim C7: in the decoder, a field whose decode fails with one of the
three sentinel errors (no-data, out-of-range, reserved) is omitted from the
decoded field list and decoding continues at the next field (offset
advanced by the reported bits); a field failing with any other Go error
makes the field-list decode — and therefore the whole `Decode` call — return
an error and no message.  (Formalised over the non-repeating decode path
that the cited code implements.) -/
theorem c7_sentinel_skip_error_abort :
    (∀ (cfg : DecoderConfig) (raw : RawMsg) (mb : Nat) (f : Field) (rest : List Field)
       (off bits : Nat) (e : DErr),
      off < mb →
      ¬((f.fieldType = .reservedField ∧ ¬cfg.decodeReservedFields) ∨
        (f.fieldType = .spare ∧ ¬cfg.decodeSpareFields)) →
      f.Decode raw.data off = (.error e, bits) →
      ((e = .noData ∨ e = .outOfRange ∨ e = .reservedValue) →
        decodeFields cfg raw mb (f :: rest) off =
          decodeFields cfg raw mb rest (add16 off bits)) ∧
      (∀ msg, e = .goError msg →
        decodeFields cfg raw mb (f :: rest) off =
          .error (.goError "decoder failed to decode field"))) ∧
    (∀ (dec : Decoder) (raw : RawMsg) (pgn : CPGN) (f0 : Field) (fs : List Field) (e : DErr),
      findPGN dec raw = .ok pgn →
      pgn.fields = f0 :: fs →
      decodeFields dec.config raw (u16 (8 * raw.data.length)) (f0 :: fs) f0.bitOffset =
        .error e →
      Decode dec raw = .error e) := by
  constructor
  · intro cfg raw mb f rest off bits e hoff hskip hdec
    constructor
    · intro hs
      have hsf : decodeSingleField cfg raw f off = .ok (none, bits) := by
        unfold decodeSingleField
        rw [if_neg hskip, hdec]
        rcases hs with h | h | h <;> subst h <;> rfl
      conv_lhs => rw [decodeFields]
      rw [if_pos hoff, hsf]
      rcases hrest : decodeFields cfg raw mb rest (add16 off bits) with e2 | tail <;>
        simp [hrest]
    · intro msg hmsg
      subst hmsg
      have hsf : decodeSingleField cfg raw f off =
          .error (.goError "decoder failed to decode field") := by
        unfold decodeSingleField
        rw [if_neg hskip, hdec]
        rfl
      unfold decodeFields
      rw [if_pos hoff, hsf]
  · intro dec raw pgn f0 fs e hfind hfields hdf
    unfold Decode decodeNonRepeating
    simp only [hfind]
    rw [hfields]
    simp only [hdf]

/-- An 8-bit unsigned NUMBER field at offset 0 (resolution 1). -/
def c7NumField : Field :=
  { id := "a", bitLength := 8, bitOffset := 0, bitLengthVariable := false,
    signed := false, offset := 0, resolution := 1, fieldType := .number, match_ := 0 }

/-- A STRING_VAR field: its decode is unsupported and returns a plain Go
error. -/
def c7BadField : Field :=
  { id := "b", bitLength := 8, bitOffset := 0, bitLengthVariable := false,
    signed := false, offset := 0, resolution := 1, fieldType := .stringVar, match_ := 0 }

/-- Message whose single byte 0xFF is the no-data sentinel for an 8-bit
unsigned number. -/
def c7Raw1 : RawMsg := ⟨0, ⟨100, 0, 0, 0⟩, [0xFF]⟩

/-- PGN definition holding only the unsupported field. -/
def c7PGN : CPGN :=
  { pgn := 100, isMatchable := false, repeatingFieldSet1StartField := 0,
    repeatingFieldSet2StartField := 0, fields := [c7BadField] }

/-- Decoder with the single PGN 100. -/
def c7Dec : Decoder := ⟨⟨false, false, false⟩, [(100, c7PGN)], []⟩

/-- Message matched by PGN 100. -/
def c7Raw2 : RawMsg := ⟨0, ⟨100, 0, 0, 0⟩, [0x00]⟩

/-- Witness for claim C7 at concrete inputs: the no-data sentinel on an
8-bit field skips the field and continues; the unsupported-type error
aborts the field-list decode and the whole `Decode` call. -/
theorem c7_sentinel_skip_error_abort_witness :
    (decodeFields ⟨false, false, false⟩ c7Raw1 8 [c7NumField] 0 =
      decodeFields ⟨false, false, false⟩ c7Raw1 8 [] (add16 0 8)) ∧
    (decodeFields ⟨false, false, false⟩ c7Raw1 8 [c7BadField] 0 =
      .error (.goError "decoder failed to decode field")) ∧
    Decode c7Dec c7Raw2 = .error (.goError "decoder failed to decode field") := by
  refine ⟨?_, ?_, ?_⟩
  · exact (c7_sentinel_skip_error_abort.1 ⟨false, false, false⟩ c7Raw1 8 c7NumField [] 0 8
      .noData (by decide) (by decide) (by decide)).1 (Or.inl rfl)
  · exact (c7_sentinel_skip_error_abort.1 ⟨false, false, false⟩ c7Raw1 8 c7BadField [] 0 0
      (.goError "unsupported field type") (by decide) (by decide) (by decide)).2
      "unsupported field type" rfl
  · exact c7_sentinel_skip_error_abort.2 c7Dec c7Raw2 c7PGN c7BadField []
      (.goError "decoder failed to decode field") rfl rfl (by decide)

/-! ### C3: address-mapper slot invariant -/

/-- Point-lookup laws for the NAME-keyed node map. -/
theorem updNodes_self (m : Nat → Option MNode) (k : Nat) (v : Option MNode) :
    updNodes m k v k = v := by
  simp [updNodes]

theorem updNodes_ne (m : Nat → Option MNode) (k : Nat) (v : Option MNode) {x : Nat}
    (h : x ≠ k) : updNodes m k v x = m x := by
  simp [updNodes, h]

theorem updSlots_self (m : Nat → Option BusSlot) (k : Nat) (v : Option BusSlot) :
    updSlots m k v k = v := by
  simp [updSlots]

theorem updSlots_ne (m : Nat → Option BusSlot) (k : Nat) (v : Option BusSlot) {x : Nat}
    (h : x ≠ k) : updSlots m k v x = m x := by
  simp [updSlots, h]

theorem setNodeSource_self (m : Nat → Option MNode) (k : Nat) (v : Nat) :
    setNodeSource m k v k = (m k).map fun n => { n with source := v } :=
  updNodes_self ..

theorem setNodeSource_ne (m : Nat → Option MNode) (k : Nat) (v : Nat) {x : Nat}
    (h : x ≠ k) : setNodeSource m k v x = m x :=
  updNodes_ne _ _ _ h

/-- The mapper invariant, strengthened for induction: every directory entry
is keyed by its own NAME and validated; every NAME resident in a slot is in
the directory and sits in the slot its (assumed fixed) source `f` dictates;
and the directory entry of a resident NAME records that slot as source. -/
structure MapperInv (f : Nat → Nat) (st : MapperState) : Prop where
  names : ∀ nm node, st.knownNodes nm = some node →
    node.name64 = nm ∧ node.validName = true
  resident : ∀ s slot nm, st.slots s = some slot → slot.node = some nm →
    (st.knownNodes nm).isSome = true ∧ f nm = s
  sources : ∀ s slot nm node, st.slots s = some slot → slot.node = some nm →
    st.knownNodes nm = some node → node.source = s

theorem mapperInv_init (f : Nat → Nat) (w : Bool) : MapperInv f (MapperState.init w) :=
  ⟨fun _ _ h => by simp [MapperState.init] at h,
   fun _ _ _ h => by simp [MapperState.init] at h,
   fun _ _ _ _ h => by simp [MapperState.init] at h⟩

/-- A well-formed claim message parses. -/
theorem pgn60928_ok (m : RawMsg) (hpgn : m.header.pgn = PGNISOAddressClaim)
    (hlen : m.data.length = 8) : ∃ name, PGN60928ToNodeName m = .ok name := by
  unfold PGN60928ToNodeName
  simp [hpgn, hlen, res_bind_ok, res_pure]

/-- Storing back a slot whose node pointer is unchanged preserves the
invariant. -/
theorem inv_store_slot (f : Nat → Nat) (st : MapperState) (src : Nat) (slot1 : BusSlot)
    (hinv : MapperInv f st)
    (hn : slot1.node = ((st.slots src).getD BusSlot.empty).node) :
    MapperInv f { st with slots := updSlots st.slots src (some slot1) } := by
  refine ⟨hinv.names, ?_, ?_⟩
  · intro s slot nm hs hnm
    dsimp only at hs ⊢
    by_cases hss : s = src
    · subst hss
      rw [updSlots_self] at hs
      cases hs
      cases hold : st.slots s with
      | none => rw [hold] at hn; simp [BusSlot.empty] at hn; rw [hn] at hnm; cases hnm
      | some s0 =>
        rw [hold] at hn; simp at hn
        exact hinv.resident s s0 nm hold (hn ▸ hnm)
    · rw [updSlots_ne _ _ _ hss] at hs
      exact hinv.resident s slot nm hs hnm
  · intro s slot nm node hs hnm hnode
    dsimp only at hs hnode ⊢
    by_cases hss : s = src
    · subst hss
      rw [updSlots_self] at hs
      cases hs
      cases hold : st.slots s with
      | none => rw [hold] at hn; simp [BusSlot.empty] at hn; rw [hn] at hnm; cases hnm
      | some s0 =>
        rw [hold] at hn; simp at hn
        exact hinv.sources s s0 nm node hold (hn ▸ hnm) hnode
    · rw [updSlots_ne _ _ _ hss] at hs
      exact hinv.sources s slot nm node hs hnm hnode

/-- Invariant transfer for a state whose slot `src` takes NAME and whose
directory satisfies the five lookup facts. -/
theorem inv_after_claim (f : Nat → Nat) (st st2 : MapperState) (slot2 : BusSlot)
    (src NAME : Nat)
    (hinv : MapperInv f st)
    (hS : st2.slots = st.slots)
    (hnode2 : slot2.node = some NAME)
    (hfN : f NAME = src)
    (h1 : ∀ x node, st2.knownNodes x = some node → node.name64 = x ∧ node.validName = true)
    (h2 : (st2.knownNodes NAME).isSome = true)
    (h3 : ∀ node, st2.knownNodes NAME = some node → node.source = src)
    (h4 : ∀ x, (st.knownNodes x).isSome = true → (st2.knownNodes x).isSome = true)
    (h5 : ∀ x s slot, x ≠ NAME → s ≠ src → st.slots s = some slot → slot.node = some x →
      st2.knownNodes x = st.knownNodes x) :
    MapperInv f { st2 with slots := updSlots st2.slots src (some slot2) } := by
  refine ⟨h1, ?_, ?_⟩
  · intro s slot nm hs hnm
    dsimp only at hs ⊢
    by_cases hss : s = src
    · subst hss
      rw [updSlots_self] at hs
      cases hs
      rw [hnode2] at hnm
      cases hnm
      exact ⟨h2, hfN⟩
    · rw [updSlots_ne _ _ _ hss, hS] at hs
      obtain ⟨hsome, hfs⟩ := hinv.resident s slot nm hs hnm
      exact ⟨h4 nm hsome, hfs⟩
  · intro s slot nm node hs hnm hnode
    dsimp only at hs hnode ⊢
    by_cases hss : s = src
    · subst hss
      rw [updSlots_self] at hs
      cases hs
      rw [hnode2] at hnm
      cases hnm
      exact h3 node hnode
    · rw [updSlots_ne _ _ _ hss, hS] at hs
      obtain ⟨hsome, hfs⟩ := hinv.resident s slot nm hs hnm
      have hne : nm ≠ NAME := fun h => hss (by rw [h] at hfs; omega)
      rw [h5 nm s slot hne hss hs hnm] at hnode
      exact hinv.sources s slot nm node hs hnm hnode

/-- Invariant transfer for a state whose slot `src` keeps its previous node
pointer and whose directory changes only at non-resident NAMEs. -/
theorem inv_nochange (f : Nat → Nat) (st st2 : MapperState) (slot0 slot2 : BusSlot)
    (src : Nat)
    (hinv : MapperInv f st)
    (hS : st2.slots = st.slots)
    (hslot : st.slots src = some slot0)
    (hnode2 : slot2.node = slot0.node)
    (h1 : ∀ x node, st2.knownNodes x = some node → node.name64 = x ∧ node.validName = true)
    (h5 : ∀ x s slot, st.slots s = some slot → slot.node = some x →
      st2.knownNodes x = st.knownNodes x) :
    MapperInv f { st2 with slots := updSlots st2.slots src (some slot2) } := by
  refine ⟨h1, ?_, ?_⟩
  · intro s slot nm hs hnm
    dsimp only at hs ⊢
    by_cases hss : s = src
    · subst hss
      rw [updSlots_self] at hs
      cases hs
      rw [hnode2] at hnm
      obtain ⟨hsome, hfs⟩ := hinv.resident s slot0 nm hslot hnm
      rw [h5 nm s slot0 hslot hnm]
      exact ⟨hsome, hfs⟩
    · rw [updSlots_ne _ _ _ hss, hS] at hs
      obtain ⟨hsome, hfs⟩ := hinv.resident s slot nm hs hnm
      rw [h5 nm s slot hs hnm]
      exact ⟨hsome, hfs⟩
  · intro s slot nm node hs hnm hnode
    dsimp only at hs hnode ⊢
    by_cases hss : s = src
    · subst hss
      rw [updSlots_self] at hs
      cases hs
      rw [hnode2] at hnm
      rw [h5 nm s slot0 hslot hnm] at hnode
      exact hinv.sources s slot0 nm node hslot hnm hnode
    · rw [updSlots_ne _ _ _ hss, hS] at hs
      rw [h5 nm s slot hs hnm] at hnode
      exact hinv.sources s slot nm node hs hnm hnode


/-- Claiming a NAME that was not yet in the directory. -/
theorem inv_claim_fresh (f : Nat → Nat) (st st2 : MapperState) (slot2 : BusSlot)
    (src NAME : Nat) (nd : MNode)
    (hinv : MapperInv f st)
    (hS : st2.slots = st.slots)
    (hnode2 : slot2.node = some NAME)
    (hfN : f NAME = src)
    (hnd : nd.name64 = NAME ∧ nd.validName = true)
    (hK : st2.knownNodes = setNodeSource (updNodes st.knownNodes NAME (some nd)) NAME src) :
    MapperInv f { st2 with slots := updSlots st2.slots src (some slot2) } := by
  refine inv_after_claim f st st2 slot2 src NAME hinv hS hnode2 hfN ?_ ?_ ?_ ?_ ?_
  · intro x node hx
    rw [hK] at hx
    by_cases hxN : x = NAME
    · subst hxN
      rw [setNodeSource_self, updNodes_self] at hx
      simp only [Option.map_some', Option.some.injEq] at hx
      subst hx
      exact ⟨hnd.1, hnd.2⟩
    · rw [setNodeSource_ne _ _ _ hxN, updNodes_ne _ _ _ hxN] at hx
      exact hinv.names x node hx
  · rw [hK, setNodeSource_self, updNodes_self]
    rfl
  · intro node hx
    rw [hK, setNodeSource_self, updNodes_self] at hx
    simp only [Option.map_some', Option.some.injEq] at hx
    subst hx
    rfl
  · intro x hx
    rw [hK]
    by_cases hxN : x = NAME
    · subst hxN
      rw [setNodeSource_self, updNodes_self]
      rfl
    · rw [setNodeSource_ne _ _ _ hxN, updNodes_ne _ _ _ hxN]
      exact hx
  · intro x s slot hxN hss hs hn
    rw [hK, setNodeSource_ne _ _ _ hxN, updNodes_ne _ _ _ hxN]

/-- Claiming a NAME already present in the directory, into an empty slot. -/
theorem inv_claim_known (f : Nat → Nat) (st st2 : MapperState) (slot2 : BusSlot)
    (src NAME : Nat)
    (hinv : MapperInv f st)
    (hS : st2.slots = st.slots)
    (hnode2 : slot2.node = some NAME)
    (hfN : f NAME = src)
    (hsome : (st.knownNodes NAME).isSome = true)
    (hK : st2.knownNodes = setNodeSource st.knownNodes NAME src) :
    MapperInv f { st2 with slots := updSlots st2.slots src (some slot2) } := by
  obtain ⟨cur, hcur⟩ := Option.isSome_iff_exists.mp hsome
  refine inv_after_claim f st st2 slot2 src NAME hinv hS hnode2 hfN ?_ ?_ ?_ ?_ ?_
  · intro x node hx
    rw [hK] at hx
    by_cases hxN : x = NAME
    · subst hxN
      rw [setNodeSource_self, hcur] at hx
      simp only [Option.map_some', Option.some.injEq] at hx
      subst hx
      obtain ⟨h64, hv⟩ := hinv.names _ cur hcur
      exact ⟨h64, hv⟩
    · rw [setNodeSource_ne _ _ _ hxN] at hx
      exact hinv.names x node hx
  · rw [hK, setNodeSource_self, hcur]
    rfl
  · intro node hx
    rw [hK, setNodeSource_self, hcur] at hx
    simp only [Option.map_some', Option.some.injEq] at hx
    subst hx
    rfl
  · intro x hx
    rw [hK]
    by_cases hxN : x = NAME
    · subst hxN
      rw [setNodeSource_self, hcur]
      rfl
    · rw [setNodeSource_ne _ _ _ hxN]
      exact hx
  · intro x s slot hxN hss hs hn
    rw [hK, setNodeSource_ne _ _ _ hxN]

/-- Claiming a NAME that displaces the incumbent of the slot.  `M` is the
directory after the possible fresh insert of the claiming NAME. -/
theorem inv_claim_displace (f : Nat → Nat) (st st2 : MapperState) (slot2 : BusSlot)
    (src NAME old : Nat) (M : Nat → Option MNode)
    (hinv : MapperInv f st)
    (hS : st2.slots = st.slots)
    (hnode2 : slot2.node = some NAME)
    (hfN : f NAME = src)
    (hfold : f old = src)
    (hNold : NAME ≠ old)
    (hMn : ∀ x node, M x = some node → node.name64 = x ∧ node.validName = true)
    (hMmono : ∀ x, (st.knownNodes x).isSome = true → (M x).isSome = true)
    (hMsame : ∀ x, x ≠ NAME → M x = st.knownNodes x)
    (hMNsome : (M NAME).isSome = true)
    (hK : st2.knownNodes = setNodeSource (setNodeSource M old AddressNull) NAME src) :
    MapperInv f { st2 with slots := updSlots st2.slots src (some slot2) } := by
  obtain ⟨cur, hcur⟩ := Option.isSome_iff_exists.mp hMNsome
  refine inv_after_claim f st st2 slot2 src NAME hinv hS hnode2 hfN ?_ ?_ ?_ ?_ ?_
  · intro x node hx
    rw [hK] at hx
    by_cases hxN : x = NAME
    · subst hxN
      rw [setNodeSource_self, setNodeSource_ne _ _ _ hNold, hcur] at hx
      simp only [Option.map_some', Option.some.injEq] at hx
      subst hx
      obtain ⟨h64, hv⟩ := hMn _ cur hcur
      exact ⟨h64, hv⟩
    · rw [setNodeSource_ne _ _ _ hxN] at hx
      by_cases hxo : x = old
      · subst hxo
        rw [setNodeSource_self] at hx
        cases hMold : M x with
        | none => rw [hMold] at hx; cases hx
        | some oldN =>
          rw [hMold] at hx
          simp only [Option.map_some', Option.some.injEq] at hx
          subst hx
          obtain ⟨h64, hv⟩ := hMn _ oldN hMold
          exact ⟨h64, hv⟩
      · rw [setNodeSource_ne _ _ _ hxo] at hx
        exact hMn x node hx
  · rw [hK, setNodeSource_self, setNodeSource_ne _ _ _ hNold, hcur]
    rfl
  · intro node hx
    rw [hK, setNodeSource_self, setNodeSource_ne _ _ _ hNold, hcur] at hx
    simp only [Option.map_some', Option.some.injEq] at hx
    subst hx
    rfl
  · intro x hx
    rw [hK]
    by_cases hxN : x = NAME
    · subst hxN
      rw [setNodeSource_self, setNodeSource_ne _ _ _ hNold, hcur]
      rfl
    · rw [setNodeSource_ne _ _ _ hxN]
      by_cases hxo : x = old
      · subst hxo
        rw [setNodeSource_self]
        have hMs := hMmono x hx
        cases hMold : M x with
        | none => rw [hMold] at hMs; cases hMs
        | some oldN => rfl
      · rw [setNodeSource_ne _ _ _ hxo]
        exact hMmono x hx
  · intro x s slot hxN hss hs hn
    have hfx := (hinv.resident s slot x hs hn).2
    have hxo : x ≠ old := by
      intro h
      rw [h] at hfx
      rw [hfold] at hfx
      exact hss hfx.symm
    rw [hK, setNodeSource_ne _ _ _ hxN, setNodeSource_ne _ _ _ hxo]
    exact hMsame x hxN

theorem claim_step (f : Nat → Nat) (st : MapperState) (slot0 : BusSlot) (m : RawMsg)
    (now : Nat)
    (hinv : MapperInv f st)
    (hslot : st.slots m.header.source = some slot0)
    (hpgn : m.header.pgn = PGNISOAddressClaim) (hlen : m.data.length = 8)
    (hf : f (le64 m.data) = m.header.source) :
    MapperInv f
      { (processISOAddressClaim st slot0 m now).1 with
        slots := updSlots (processISOAddressClaim st slot0 m now).1.slots
          m.header.source (some (processISOAddressClaim st slot0 m now).2.1) } := by
  obtain ⟨name, hname⟩ := pgn60928_ok m hpgn hlen
  unfold processISOAddressClaim
  simp only [hname]
  cases hnode : slot0.node with
  | none =>
    cases hknown : st.knownNodes (le64 m.data) with
    | none =>
      simp only [hnode, hknown]
      split
      · exact inv_claim_fresh f st _ _ m.header.source (le64 m.data) _ hinv rfl rfl hf
          ⟨rfl, rfl⟩ rfl
      · exact inv_claim_fresh f st _ _ m.header.source (le64 m.data) _ hinv rfl rfl hf
          ⟨rfl, rfl⟩ rfl
    | some cur =>
      simp only [hnode, hknown]
      split
      · exact inv_claim_known f st _ _ m.header.source (le64 m.data) hinv rfl rfl hf
          (by rw [hknown]; rfl) rfl
      · exact inv_claim_known f st _ _ m.header.source (le64 m.data) hinv rfl rfl hf
          (by rw [hknown]; rfl) rfl
  | some old =>
    have hres := hinv.resident m.header.source slot0 old hslot hnode
    have hfold := hres.2
    obtain ⟨oldN, holdN⟩ := Option.isSome_iff_exists.mp hres.1
    obtain ⟨hold64, holdv⟩ := hinv.names old oldN holdN
    cases hknown : st.knownNodes (le64 m.data) with
    | none =>
      have hoNe : old ≠ le64 m.data := by
        intro h
        rw [h, hknown] at holdN
        cases holdN
      simp only [hnode, hknown, updNodes_ne _ _ _ hoNe, holdN, updNodes_self,
        Option.getD_some]
      split
      · next hdisp =>
        have hNold : le64 m.data ≠ old := by
          obtain ⟨h1, h2⟩ := hdisp
          omega
        split
        · refine inv_claim_displace f st _ _ m.header.source (le64 m.data) old _ hinv rfl rfl
            hf hfold hNold ?_ ?_ ?_ ?_ rfl
          · intro x node hx
            by_cases hxN : x = le64 m.data
            · subst hxN
              rw [updNodes_self] at hx
              simp only [Option.some.injEq] at hx
              subst hx
              exact ⟨rfl, rfl⟩
            · rw [updNodes_ne _ _ _ hxN] at hx
              exact hinv.names x node hx
          · intro x hx
            by_cases hxN : x = le64 m.data
            · subst hxN
              rw [updNodes_self]
              rfl
            · rw [updNodes_ne _ _ _ hxN]
              exact hx
          · intro x hxN
            exact updNodes_ne _ _ _ hxN
          · rw [updNodes_self]
            rfl
        · refine inv_claim_displace f st _ _ m.header.source (le64 m.data) old _ hinv rfl rfl
            hf hfold hNold ?_ ?_ ?_ ?_ rfl
          · intro x node hx
            by_cases hxN : x = le64 m.data
            · subst hxN
              rw [updNodes_self] at hx
              simp only [Option.some.injEq] at hx
              subst hx
              exact ⟨rfl, rfl⟩
            · rw [updNodes_ne _ _ _ hxN] at hx
              exact hinv.names x node hx
          · intro x hx
            by_cases hxN : x = le64 m.data
            · subst hxN
              rw [updNodes_self]
              rfl
            · rw [updNodes_ne _ _ _ hxN]
              exact hx
          · intro x hxN
            exact updNodes_ne _ _ _ hxN
          · rw [updNodes_self]
            rfl
      · split
        · refine inv_nochange f st _ slot0 _ m.header.source hinv rfl hslot rfl ?_ ?_
          · intro x node hx
            dsimp only at hx
            by_cases hxN : x = le64 m.data
            · subst hxN
              rw [updNodes_self] at hx
              simp only [Option.some.injEq] at hx
              subst hx
              exact ⟨rfl, rfl⟩
            · rw [updNodes_ne _ _ _ hxN] at hx
              exact hinv.names x node hx
          · intro x s slot hs hn
            have hxN : x ≠ le64 m.data := by
              intro h
              have h2 := (hinv.resident s slot x hs hn).1
              rw [h, hknown] at h2
              cases h2
            exact updNodes_ne _ _ _ hxN
        · refine inv_nochange f st _ slot0 _ m.header.source hinv rfl hslot rfl ?_ ?_
          · intro x node hx
            dsimp only at hx
            by_cases hxN : x = le64 m.data
            · subst hxN
              rw [updNodes_self] at hx
              simp only [Option.some.injEq] at hx
              subst hx
              exact ⟨rfl, rfl⟩
            · rw [updNodes_ne _ _ _ hxN] at hx
              exact hinv.names x node hx
          · intro x s slot hs hn
            have hxN : x ≠ le64 m.data := by
              intro h
              have h2 := (hinv.resident s slot x hs hn).1
              rw [h, hknown] at h2
              cases h2
            exact updNodes_ne _ _ _ hxN
    | some cur =>
      have hcur64 := (hinv.names _ cur hknown).1
      simp only [hnode, hknown, holdN, Option.getD_some]
      split
      · next hdisp =>
        have hNold : le64 m.data ≠ old := by
          obtain ⟨h1, h2⟩ := hdisp
          omega
        split
        · refine inv_claim_displace f st _ _ m.header.source (le64 m.data) old
            st.knownNodes hinv rfl rfl hf hfold hNold hinv.names (fun x h => h)
            (fun x h => rfl) (by rw [hknown]; rfl) rfl
        · refine inv_claim_displace f st _ _ m.header.source (le64 m.data) old
            st.knownNodes hinv rfl rfl hf hfold hNold hinv.names (fun x h => h)
            (fun x h => rfl) (by rw [hknown]; rfl) rfl
      · split
        · exact inv_nochange f st _ slot0 _ m.header.source hinv rfl hslot rfl hinv.names
            (fun x s slot hs hn => rfl)
        · exact inv_nochange f st _ slot0 _ m.header.source hinv rfl hslot rfl hinv.names
            (fun x s slot hs hn => rfl)

/-- `Process` on a well-formed address claim preserves the invariant. -/
theorem process_claim_preserves_inv (f : Nat → Nat) (st : MapperState) (m : RawMsg)
    (now : Nat)
    (hinv : MapperInv f st)
    (hpgn : m.header.pgn = PGNISOAddressClaim) (hlen : m.data.length = 8)
    (hsrc : m.header.source ≤ 253) (hf : f (le64 m.data) = m.header.source) :
    MapperInv f (Process st m now).1 := by
  have hlt : m.header.source < AddressNull := by
    unfold AddressNull
    omega
  have hslotX : ({ st with
      slots := updSlots st.slots m.header.source
        (some { (st.slots m.header.source).getD BusSlot.empty with lastPacket := m.time }) }
      : MapperState).slots m.header.source
      = some { (st.slots m.header.source).getD BusSlot.empty with lastPacket := m.time } := by
    dsimp only
    rw [updSlots_self]
  have hinv1 := inv_store_slot f st m.header.source
    { (st.slots m.header.source).getD BusSlot.empty with lastPacket := m.time } hinv rfl
  have hstep := claim_step f _ _ m now hinv1 hslotX hpgn hlen hf
  have hd : ∀ (s : MapperState) (sl : BusSlot),
      processDispatch s sl m now = processISOAddressClaim s sl m now := by
    intro s sl
    unfold processDispatch
    rw [if_pos hpgn]
  unfold Process
  rw [if_pos hlt]
  simp only [hd]
  exact hstep

/-- Processing a trace of well-formed claims preserves the invariant. -/
theorem processList_inv (f : Nat → Nat) (msgs : List (RawMsg × Nat)) :
    ∀ st : MapperState,
      (∀ p ∈ msgs, p.1.header.pgn = PGNISOAddressClaim ∧ p.1.data.length = 8 ∧
        p.1.header.source ≤ 253 ∧ f (le64 p.1.data) = p.1.header.source) →
      MapperInv f st → MapperInv f (processList st msgs) := by
  induction msgs with
  | nil => intro st _ hinv; exact hinv
  | cons p rest ih =>
    intro st hmsgs hinv
    obtain ⟨h1, h2, h3, h4⟩ := hmsgs p (List.mem_cons_self p rest)
    exact ih _ (fun q hq => hmsgs q (List.mem_cons_of_mem p hq))
      (process_claim_preserves_inv f st p.1 p.2 hinv h1 h2 h3 h4)

/-- An ISO address claim with NAME 1 from the given source. -/
def c3Msg (src : Nat) : RawMsg := ⟨0, ⟨60928, 6, src, 255⟩, [1, 0, 0, 0, 0, 0, 0, 0]⟩

/-- C3 counterexample: two address claims for the same NAME from sources 5
and 7 (the device moved) leave both slot 5 and slot 7 pointing at the NAME-1
node, whose recorded source is 7 — so slot 5 violates both halves of the
claimed invariant. -/
theorem c3_slot_invariant_counterexample :
    ((processList (MapperState.init false) [(c3Msg 5, 10), (c3Msg 7, 20)]).slots 5).map
        (fun s => s.node) = some (some 1) ∧
    ((processList (MapperState.init false) [(c3Msg 5, 10), (c3Msg 7, 20)]).slots 7).map
        (fun s => s.node) = some (some 1) ∧
    ((processList (MapperState.init false) [(c3Msg 5, 10), (c3Msg 7, 20)]).knownNodes 1).map
        (fun n => n.source) = some 7 := by
  exact ⟨rfl, rfl, rfl⟩

/-- C3 (amended: the claimed slot invariant holds provided each NAME always
claims from one fixed source, i.e. no device changes address): after any
sequence of well-formed ISO address claims (PGN 60928, 8 data bytes,
sources 0..253) in which the source of every claim is a function `f` of the
claimed NAME, every occupied slot `s` holds a NAME whose directory node has
current source `s`, and no other slot holds the same NAME. -/
theorem c3_slot_invariant (w : Bool) (f : Nat → Nat) (msgs : List (RawMsg × Nat))
    (hmsgs : ∀ p ∈ msgs, p.1.header.pgn = PGNISOAddressClaim ∧ p.1.data.length = 8 ∧
      p.1.header.source ≤ 253 ∧ f (le64 p.1.data) = p.1.header.source) :
    ∀ s slot nm, (processList (MapperState.init w) msgs).slots s = some slot →
      slot.node = some nm →
      (∃ node, (processList (MapperState.init w) msgs).knownNodes nm = some node ∧
          node.source = s) ∧
      (∀ t slot2, (processList (MapperState.init w) msgs).slots t = some slot2 →
        slot2.node = some nm → t = s) := by
  have hinv := processList_inv f msgs (MapperState.init w) hmsgs (mapperInv_init f w)
  intro s slot nm hs hn
  obtain ⟨hsome, hfs⟩ := hinv.resident s slot nm hs hn
  constructor
  · obtain ⟨node, hnode⟩ := Option.isSome_iff_exists.mp hsome
    exact ⟨node, hnode, hinv.sources s slot nm node hs hn hnode⟩
  · intro t slot2 ht hnt
    have hft := (hinv.resident t slot2 nm ht hnt).2
    omega

theorem c3_slot_invariant_witness :
    ∃ node, (processList (MapperState.init false) [(c3Msg 5, 10)]).knownNodes 1
        = some node ∧ node.source = 5 :=
  (c3_slot_invariant false (fun _ => 5) [(c3Msg 5, 10)]
    (by
      intro p hp
      simp only [List.mem_singleton] at hp
      subst hp
      exact ⟨rfl, rfl, by decide, rfl⟩)
    5 ⟨some 1, 10, 0, 0, 0, 0⟩ 1 rfl rfl).1

end GoNmea
